import Mathlib

/-!
Verification of the ecrecover precompile circuit
(src/ecrecover/new_optimized.rs) against its specification.

The circuit code is a witness-level arithmetic program: every gadget
operation deterministically maps input values to output values, with side
constraints that must hold for the witness to be accepted.  We embed the
value semantics of each routine as a Lean function, and model the side
constraints as explicit propositions.  External collaborator gadgets
(the boojum curve gadget, keccak, the fixed-base lookup tables) are
modelled by their documented contracts: curve points live in an abstract
additive commutative group, the keccak compression and the fixed-base
tables are opaque function parameters.  All in-repository logic (scalar
decomposition, window loops, flag collection, masking, queue plumbing)
is transcribed faithfully from the source.
-/

/-! ## Curve constants

`secpP` is the secp256k1 base-field modulus, `secpN` the group order
(scalar-field modulus).  Both are fixed parameters of the external
field emulators instantiated in the source file. -/

def secpP : ℕ :=
  0xfffffffffffffffffffffffffffffffffffffffffffffffffffffffefffffc2f

def secpN : ℕ :=
  0xfffffffffffffffffffffffffffffffebaaedce6af48a03bbfd25e8cd0364141

/-- GLV decomposition constant `A1` of new_optimized.rs (hex string there). -/
def A1 : ℕ := 0x3086d221a7d46bcde86c90e49284eb15

/-- GLV decomposition constant `B1` of new_optimized.rs. -/
def B1 : ℕ := 0xe4437ed6010e88286f547fa90abfe4c3

/-- GLV decomposition constant `A2` of new_optimized.rs. `B2 = A1` per the source note. -/
def A2 : ℕ := 0x114ca50f7a8e2f3f657c1108d9d44cfd8

/-- The constant `MODULUS_MINUS_ONE_DIV_TWO` of new_optimized.rs: the
rounding offset added before taking the high 256 bits in the GLV
decomposition. -/
def MODULUS_MINUS_ONE_DIV_TWO : ℕ :=
  0x7fffffffffffffffffffffffffffffff5d576e7357a4501ddfe92f46681b20a0

/-- The constant `MAX_DECOMPOSITION_VALUE` of new_optimized.rs, written
exactly as its four little-endian 64-bit limbs
`U256([u64::MAX, u64::MAX, 0x0f, 0])`. -/
def MAX_DECOMPOSITION_VALUE : ℕ :=
  0xffffffffffffffff + 0xffffffffffffffff * 2 ^ 64 + 0x0f * 2 ^ 128

/-- The constant `BETA` of new_optimized.rs (decimal string there): the
base-field scaling of the x-coordinate realising the curve endomorphism. -/
def BETA : ℕ :=
  55594575648329892869085402983802832744385952214688224221778511981742606582254

/-- Scalar eigenvalue of the secp256k1 endomorphism: multiplying a point
by `GLV_LAMBDA` equals scaling its x-coordinate by `BETA`.  Modelled from
the spec (section 4.2): the endomorphism `φ` used in `s*P = k1*P + k2*φ(P)`;
the constant itself is standard for secp256k1 and is tied to `BETA` through
the hypotheses of the theorems below. -/
def GLV_LAMBDA : ℕ :=
  0x5363ad4cc05c30e0a5261c028812645a122e22ea20816678df02967c1b23bd72

/-- `SECP_B_COEF` of new_optimized.rs: the curve equation constant of
secp256k1, `y^2 = x^3 + 7`. -/
def SECP_B_COEF : ℕ := 7

/-- `VALID_X_CUBED_IN_EXTERNAL_FIELD` of new_optimized.rs: substitute x
used when the curve-equation right-hand side is a non-residue. -/
def VALID_X_CUBED_IN_EXTERNAL_FIELD : ℕ := 9

/-- `VALID_Y_IN_EXTERNAL_FIELD` of new_optimized.rs. -/
def VALID_Y_IN_EXTERNAL_FIELD : ℕ := 4

/-- `ALLOW_ZERO_MESSAGE` of new_optimized.rs: compiled-in policy allowing a
zero message digest without raising an exception. -/
def ALLOW_ZERO_MESSAGE : Bool := true

/-! ## Digit decomposition helper

`digitsVal b m k` is the value reconstructed from the `m` least
significant base-`b` digits of `k`; limb and window decompositions in the
source are all of this shape. -/

def digitsVal (b m k : ℕ) : ℕ :=
  ((List.range m).map (fun j => b ^ j * (k / b ^ j % b))).sum

/-! ## Field-element conversions (convert_uint256_to_field_element*)

A `UInt256` gadget value is a vector of eight 32-bit limbs; conversion to
a non-native field element re-splits it into sixteen 16-bit limbs whose
weighted value is the represented integer.  The element produced is in
`Normalized` form with overflow tracker covering the whole 256-bit range,
so its field value is the limb value reduced modulo the field modulus. -/

/-- The eight 32-bit little-endian limbs of a `UInt256` gadget value. -/
def u32Limbs (w : ℕ) : List ℕ :=
  (List.range 8).map (fun i => w / 2 ^ (32 * i) % 2 ^ 32)

/-- Value semantics of `convert_uint256_to_field_element`: split into
sixteen 16-bit limbs and read them as an element of the foreign field. -/
def convertUInt256ToFieldElement (m : ℕ) (w : ℕ) : ZMod m :=
  (digitsVal (2 ^ 16) 16 w : ZMod m)

/-- Value semantics of `convert_uint256_to_field_element_masked`: the
`is_zero` flag tests the raw 256-bit word (all eight 32-bit limbs zero);
if it is set the constant one element is selected instead of the
converted element, and the flag is returned alongside. -/
def convertUInt256ToFieldElementMasked (m : ℕ) (w : ℕ) : ZMod m × Bool :=
  let isZero : Bool := (u32Limbs w).all (fun l => l == 0)
  let element : ZMod m := (digitsVal (2 ^ 16) 16 w : ZMod m)
  (if isZero then 1 else element, isZero)

/-! ## GLV scalar decomposition (width_4_windowed_multiplication, lines 261-322)

`convert_field_element_to_uint256` of a normalized element with overflow
tracker one is its canonical value, i.e. `ZMod.val`. -/

/-- High 256 bits of `k * B2 + MODULUS_MINUS_ONE_DIV_TWO` (with `B2 = A1`):
the rounded multiplier `c1` of the source. -/
def glvC1 (k : ℕ) : ℕ := (k * A1 + MODULUS_MINUS_ONE_DIV_TWO) / 2 ^ 256

/-- High 256 bits of `k * B1 + MODULUS_MINUS_ONE_DIV_TWO`: the rounded
multiplier `c2` of the source. -/
def glvC2 (k : ℕ) : ℕ := (k * B1 + MODULUS_MINUS_ONE_DIV_TWO) / 2 ^ 256

/-- `k1 = s - c1*a1 - c2*a2` computed in the scalar field and normalized. -/
def glvRawK1 (s : ZMod secpN) : ZMod secpN :=
  s - (glvC1 s.val : ZMod secpN) * (A1 : ZMod secpN)
    - (glvC2 s.val : ZMod secpN) * (A2 : ZMod secpN)

/-- `k2 = c1*b1 - c2*b2` (with `b2 = a1`) computed in the scalar field and
normalized. -/
def glvRawK2 (s : ZMod secpN) : ZMod secpN :=
  (glvC1 s.val : ZMod secpN) * (B1 : ZMod secpN)
    - (glvC2 s.val : ZMod secpN) * (A1 : ZMod secpN)

/-- The scalar decomposition block of `width_4_windowed_multiplication`:
each half-scalar is compared (by borrow of a 256-bit subtraction) against
`MAX_DECOMPOSITION_VALUE`; an out-of-range half is replaced by its modular
negation and the fact is recorded.  Returns
`(k1_was_negated, k1, k2_was_negated, k2)`. -/
def glvDecompose (s : ZMod secpN) : Bool × ZMod secpN × Bool × ZMod secpN :=
  let k1 := glvRawK1 s
  let k2 := glvRawK2 s
  let k1neg : Bool := decide (MAX_DECOMPOSITION_VALUE < k1.val)
  let k2neg : Bool := decide (MAX_DECOMPOSITION_VALUE < k2.val)
  (k1neg, if k1neg then -k1 else k1, k2neg, if k2neg then -k2 else k2)

/-! ## Width-4 windowed combined multiplication (lines 230-483)

Curve points live in an abstract additive commutative group `G`: the
external `SWProjectivePoint` gadget implements the secp256k1 group law
(complete formulas), so `add_mixed`, `double` and y-negation are modelled
by `+`, doubling and `-` in `G`.  Affine conversion of the nonzero table
entries is the identity under this contract; the x-coordinate scaling by
`BETA` building the endomorphism table is an external coordinate
operation modelled by an opaque endomorphism parameter `φ`. -/

/-- Table construction loop: starting from `tmp = point`, repeatedly
`add_mixed` the base point and record the results (`2P, 3P, ...`). -/
def buildTableAux {G : Type} [AddCommGroup G] (P : G) : G → ℕ → List G
  | _, 0 => []
  | tmp, m + 1 => (tmp + P) :: buildTableAux P (tmp + P) m

/-- The precomputed table `[P, 2P, ..., 15P]` (PRECOMPUTATION_TABLE_SIZE = 15). -/
def buildTable {G : Type} [AddCommGroup G] (P : G) : List G :=
  P :: buildTableAux P P 14

/-- The oblivious selection scan of the multiplication loop: start from
`table[0]` and, for `i = 1..14`, replace the selection by `table[i]` when
the window value equals the comparison constant `i + 1`. -/
def scanSelect {G : Type} [AddCommGroup G] (tbl : List G) (w : ℕ) : G :=
  (List.range' 1 14).foldl
    (fun sel i => if w = i + 1 then tbl.getD i 0 else sel) (tbl.getD 0 0)

/-- The most-significant-first width-4 window of `k` at step `i` of 33
(`to_width_4_window_form` value semantics: byte-split of the sixteen-bit
limbs into nibbles, highest limb constrained below 16). -/
def window4 (k i : ℕ) : ℕ := k / 16 ^ (32 - i) % 16

/-- One conditional table addition of the loop body: the scan result is
added through `add_mixed` and the previous accumulator is kept when the
window value is zero. -/
def w4CondAdd {G : Type} [AddCommGroup G] (tbl : List G) (acc : G) (w : ℕ) : G :=
  if w = 0 then acc else acc + scanSelect tbl w

/-- One full iteration of the amortized double-and-add loop at step `i`:
both conditional additions, then four doublings unless this is the last
(33rd) step. -/
def w4LoopStep {G : Type} [AddCommGroup G] (tbl etbl : List G) (k1 k2 : ℕ)
    (acc : G) (i : ℕ) : G :=
  let acc1 := w4CondAdd tbl acc (window4 k1 i)
  let acc2 := w4CondAdd etbl acc1 (window4 k2 i)
  if i ≠ 32 then 2 • (2 • (2 • (2 • acc2))) else acc2

/-- The amortized double-and-add loop over the 33 window pairs,
most-significant first, starting from the zero (infinity) accumulator. -/
def w4Loop {G : Type} [AddCommGroup G] (tbl etbl : List G) (k1 k2 : ℕ) : G :=
  (List.range 33).foldl (w4LoopStep tbl etbl k1 k2) 0

/-- `width_4_windowed_multiplication`: GLV-decompose the scalar, build the
precomputed table and its endomorphism image, negate table y-coordinates
according to the recorded flags, and run the windowed loop on the two
half-scalars. -/
def width4WindowedMultiplication {G : Type} [AddCommGroup G] (φ : G → G)
    (P : G) (s : ZMod secpN) : G :=
  let d := glvDecompose s
  let k1neg := d.1
  let k1 := d.2.1
  let k2neg := d.2.2.1
  let k2 := d.2.2.2
  let table := (buildTable P).map (fun Q => if k1neg then -Q else Q)
  let etable := ((buildTable P).map φ).map (fun Q => if k2neg then -Q else Q)
  w4Loop table etable k1.val k2.val

/-! ## Fixed-base multiplication (fixed_base_mul, lines 485-577)

The per-byte lookup tables are external data supplied through table ids;
they are modelled as an opaque function from (byte position, byte value)
to a curve point.  The scalar is enforced reduced, decomposed in its 32
little-endian bytes, and the byte positions are processed
most-significant first (the `rev()` of the zipped iterator). -/

/-- One iteration of the fixed-base loop: `add_mixed` the table point for
this (position, byte) pair, keeping the previous accumulator when the
byte is zero. -/
def fbStep {G : Type} [AddCommGroup G] (tbl : ℕ → ℕ → G) (acc : G)
    (pb : ℕ × ℕ) : G :=
  if pb.2 = 0 then acc else acc + tbl pb.1 pb.2

/-- `fixed_base_mul` over the abstract group: fold the conditional
additions over the byte positions (most-significant first) and finally
select the explicit zero point when the whole scalar is zero. -/
def fixedBaseMul {G : Type} [AddCommGroup G] (tbl : ℕ → ℕ → G)
    (s : ZMod secpN) : G :=
  let bytes := (List.range 32).map (fun i => s.val / 256 ^ i % 256)
  let acc := (((List.range 32).zip bytes).reverse).foldl (fbStep tbl) 0
  if s = 0 then 0 else acc

/-! ## Quadratic-residue and square-root chains (lines 687-733)

`t_powers[i]` is the i-fold squaring of `t`; the Legendre symbol and the
square-root candidate are assembled from fixed index lists and one
unchecked division (modelled by multiplication with `ZMod.inv`). -/

/-- The successive squarings `t, t^2, t^4, ...` (array `t_powers`). -/
def tPowers (t : ZMod secpP) : ℕ → ZMod secpP
  | 0 => t
  | i + 1 => tPowers t i ^ 2

/-- The divisor chain of the Legendre computation: `t_powers[0]` times the
powers at indices `[3, 5, 6, 7, 8, 31]`. -/
def legendreChainAcc (t : ZMod secpP) : ZMod secpP :=
  [3, 5, 6, 7, 8, 31].foldl (fun a i => a * tPowers t i) (tPowers t 0)

/-- The Legendre symbol as computed by the fixed chain:
`t_powers[255]` divided (unchecked) by the accumulated product. -/
def legendreChain (t : ZMod secpP) : ZMod secpP :=
  tPowers t 255 * (legendreChainAcc t)⁻¹

/-- The divisor chain of the square-root computation: `t_powers[2]` times
the powers at indices `[4, 5, 6, 7, 30]`. -/
def sqrtChainAcc (t : ZMod secpP) : ZMod secpP :=
  [4, 5, 6, 7, 30].foldl (fun a i => a * tPowers t i) (tPowers t 2)

/-- The candidate square root via the (p+1)/4 chain: `t_powers[254]`
divided (unchecked) by the accumulated product. -/
def sqrtCandidate (t : ZMod secpP) : ZMod secpP :=
  tPowers t 254 * (sqrtChainAcc t)⁻¹

/-- Parity selection of the recovered y: swap the candidate root for its
negation when its lowest bit disagrees with the parity bit of the
recovery id (bit 0 of `recid`). -/
def selectSqrt (t : ZMod secpP) (recid : ℕ) : ZMod secpP :=
  let c := sqrtCandidate t
  let lowestBit : Bool := decide (c.val % 2 = 1)
  let yIsOdd : Bool := decide (recid % 2 = 1)
  if xor lowestBit yIsOdd then -c else c

/-! ## The inner recovery routine (ecrecover_precompile_inner_routine, lines 579-850)

External interfaces are collected in `PointModel`: the unchecked
affine-to-point embedding, infinity-safe affine conversion (returning a
default coordinate pair plus an `is_infinity` flag), the `BETA`
x-coordinate endomorphism, the fixed-base lookup tables, and the keccak
permutation. -/

structure PointModel (G : Type) where
  fromXY : ZMod secpP → ZMod secpP → G
  toAffineOrDefault : G → (ZMod secpP × ZMod secpP) × Bool
  endo : G → G
  fbTable : ℕ → ℕ → G
  keccak : List ℕ → List ℕ

/-- Big-endian byte decomposition of a 256-bit value (the coordinate
serialization feeding keccak). -/
def beBytes32 (v : ℕ) : List ℕ :=
  (List.range 32).map (fun i => v / 256 ^ (31 - i) % 256)

/-- Value of a little-endian byte list (`UInt256::from_le_bytes`). -/
def leBytesVal : List ℕ → ℕ
  | [] => 0
  | b :: t => b + 256 * leBytesVal t

/-- All intermediate observables of one run of the inner routine: the
eight exception flags in their collection order, the converted message
hash, the unmasked keccak output and the two outputs. -/
structure InnerResult where
  xOverflowError : Bool
  xNotInRange : Bool
  rIsZero : Bool
  sIsZero : Bool
  msgHashIsZero : Bool
  tIsZero : Bool
  tIsNonResidue : Bool
  resultIsInfinity : Bool
  msgHashFe : ZMod secpN
  writtenUnmasked : ℕ
  anyException : Bool
  allOk : Bool
  written : ℕ

/-- `ecrecover_precompile_inner_routine`, transcribed step by step.
`msgHashCanBeZero` is the `MESSAGE_HASH_CAN_BE_ZERO` const generic. -/
def ecrecoverInner {G : Type} [AddCommGroup G] (pm : PointModel G)
    (msgHashCanBeZero : Bool) (recid r s msgHash : ℕ)
    (validX validY validT : ZMod secpP) : InnerResult :=
  let xOverflow : Bool := decide (recid / 2 % 2 = 1)
  let rPlusN : ℕ := (r + secpN) % 2 ^ 256
  let ofAdd : Bool := decide (2 ^ 256 ≤ r + secpN)
  let xAsU256 : ℕ := if xOverflow then rPlusN else r
  let err1 : Bool := xOverflow && ofAdd
  let isInRange : Bool := decide (xAsU256 < secpP)
  let xMasked : ℕ := if isInRange then xAsU256 else 0
  let xNotInRange : Bool := !isInRange
  let xFe : ZMod secpP := convertUInt256ToFieldElement secpP xMasked
  let rConv := convertUInt256ToFieldElementMasked secpN r
  let rFe := rConv.1
  let rIsZero := rConv.2
  let sConv := convertUInt256ToFieldElementMasked secpN s
  let sFe := sConv.1
  let sIsZero := sConv.2
  let msgConv :=
    if msgHashCanBeZero then
      (convertUInt256ToFieldElement secpN msgHash, false)
    else
      convertUInt256ToFieldElementMasked secpN msgHash
  let msgHashFe := msgConv.1
  let msgHashIsZero := msgConv.2
  let t0 : ZMod secpP := xFe ^ 2 * xFe + (SECP_B_COEF : ZMod secpP)
  let tIsZero : Bool := decide (t0 = 0)
  let t : ZMod secpP := if tIsZero then validT else t0
  let legendre := legendreChain t
  let ySel := selectSqrt t recid
  let tIsNonResidue : Bool := decide (legendre = -1)
  let xPt : ZMod secpP := if tIsNonResidue then validX else xFe
  let yPt : ZMod secpP := if tIsNonResidue then validY else ySel
  let rInv := rFe⁻¹
  let sByRInv := sFe * rInv
  let msgByRInv := msgHashFe * rInv
  let msgByRInvNegated := -msgByRInv
  let recoveredPoint := pm.fromXY xPt yPt
  let sTimesX := width4WindowedMultiplication pm.endo recoveredPoint sByRInv
  let hashTimesG := fixedBaseMul pm.fbTable msgByRInvNegated
  let conv1 := pm.toAffineOrDefault hashTimesG
  let qAccAdded := sTimesX + pm.fromXY conv1.1.1 conv1.1.2
  let qAcc := if conv1.2 then sTimesX else qAccAdded
  let conv2 := pm.toAffineOrDefault qAcc
  let qx := conv2.1.1
  let qy := conv2.1.2
  let resultIsInfinity := conv2.2
  let anyException : Bool :=
    [err1, xNotInRange, rIsZero, sIsZero, msgHashIsZero,
      tIsZero, tIsNonResidue, resultIsInfinity].any id
  let bytesToHash := beBytes32 qx.val ++ beBytes32 qy.val
  let digest := pm.keccak bytesToHash
  let digestTruncated := List.replicate 12 0 ++ digest.drop 12
  let writtenUnmasked := leBytesVal digestTruncated.reverse
  let written := if anyException then 0 else writtenUnmasked
  { xOverflowError := err1
    xNotInRange := xNotInRange
    rIsZero := rIsZero
    sIsZero := sIsZero
    msgHashIsZero := msgHashIsZero
    tIsZero := tIsZero
    tIsNonResidue := tIsNonResidue
    resultIsInfinity := resultIsInfinity
    msgHashFe := msgHashFe
    writtenUnmasked := writtenUnmasked
    anyException := anyException
    allOk := !anyException
    written := written }

/-! ## Entry point: queue-state selection (ecrecover_function_entry_point, lines 903-940)

A queue state is its FIFO commitment: head commitment, tail commitment
and length.  `conditionally_select` on the gadget acts on every component
with the same selector bit. -/

structure QueueState where
  head : ℕ
  tailCommitment : ℕ
  length : ℕ
deriving DecidableEq

/-- Component-wise `QueueState::conditionally_select` with one selector. -/
def queueStateSelect (flag : Bool) (a b : QueueState) : QueueState :=
  { head := if flag then a.head else b.head
    tailCommitment := if flag then a.tailCommitment else b.tailCommitment
    length := if flag then a.length else b.length }

/-- `enforce_trivial_head` on both externally supplied initial states:
the constraints imposed on the observable input before selection. -/
def entryInputConstraints (inpReq inpMem : QueueState) : Prop :=
  inpReq.head = 0 ∧ inpMem.head = 0

/-- The live request-queue and memory-queue states of one circuit
instance: selected by the start flag between the observable-input states
and the hidden FSM states carried from the previous instance. -/
def entryLiveStates (start : Bool) (inpReq inpMem fsmReq fsmMem : QueueState) :
    QueueState × QueueState :=
  (queueStateSelect start inpReq fsmReq, queueStateSelect start inpMem fsmMem)

/-! ## The call loop body (lines 952-1069)

One cycle of the precompile loop.  Memory queries are pushed with the
`should_process` selector: a push with a false selector leaves the queue
unchanged, so the appended query list is empty for an idle cycle. -/

structure MemQuery where
  timestamp : ℕ
  memoryPage : ℕ
  index : ℕ
  rwFlag : Bool
  isPtr : Bool
  value : ℕ
deriving DecidableEq

/-- One queue request popped by the loop: the call key plus routing
fields and the request timestamp. -/
structure LogRequest where
  key : ℕ
  address : ℕ
  auxByte : ℕ
  timestamp : ℕ

/-- `EcrecoverPrecompileCallParams::from_encoding`: fixed 32-bit limb
extraction from the 256-bit call key. -/
def callParamsFromEncoding (key : ℕ) : ℕ × ℕ × ℕ × ℕ :=
  (key / 2 ^ 128 % 2 ^ 32, key % 2 ^ 32,
   key / 2 ^ 160 % 2 ^ 32, key / 2 ^ 64 % 2 ^ 32)

/-- The six memory queries appended by one processing cycle: four reads
(hash, recovery id, r, s) at auto-incrementing input offsets tagged with
the request timestamp, then the success-flag write and the
recovered-value write at auto-incrementing output offsets one timestamp
later.  An idle cycle appends nothing. -/
def cycleQueries {G : Type} [AddCommGroup G] (pm : PointModel G)
    (req : LogRequest) (shouldProcess : Bool) (readValues : List ℕ)
    (validX validY validT : ZMod secpP) : List MemQuery :=
  let params := callParamsFromEncoding req.key
  let inputPage := params.1
  let inputOffset := params.2.1
  let outputPage := params.2.2.1
  let outputOffset := params.2.2.2
  let tsRead := req.timestamp
  let tsWrite := req.timestamp + 1
  let msgHash := readValues.getD 0 0
  let v := readValues.getD 1 0
  let r := readValues.getD 2 0
  let s := readValues.getD 3 0
  let recId := v % 2 ^ 8
  let res := ecrecoverInner pm ALLOW_ZERO_MESSAGE recId r s msgHash validX validY validT
  let successAsU256 : ℕ := if res.allOk then 1 else 0
  if shouldProcess then
    [{ timestamp := tsRead, memoryPage := inputPage, index := inputOffset,
       rwFlag := false, isPtr := false, value := msgHash },
     { timestamp := tsRead, memoryPage := inputPage, index := inputOffset + 1,
       rwFlag := false, isPtr := false, value := v },
     { timestamp := tsRead, memoryPage := inputPage, index := inputOffset + 2,
       rwFlag := false, isPtr := false, value := r },
     { timestamp := tsRead, memoryPage := inputPage, index := inputOffset + 3,
       rwFlag := false, isPtr := false, value := s },
     { timestamp := tsWrite, memoryPage := outputPage, index := outputOffset,
       rwFlag := true, isPtr := false, value := successAsU256 },
     { timestamp := tsWrite, memoryPage := outputPage, index := outputOffset + 1,
       rwFlag := true, isPtr := false, value := res.written }]
  else []

/-- The constraints enforced by one cycle: the unconditional
`add_no_overflow` range constraints on the incremented timestamp and
offsets, and — only when processing — the equality of the routing fields
with the expected precompile address and aux byte (conditional
enforcement). -/
def cycleConstraints (req : LogRequest) (shouldProcess : Bool)
    (expectedAddress expectedAuxByte : ℕ) : Prop :=
  let params := callParamsFromEncoding req.key
  let inputOffset := params.2.1
  let outputOffset := params.2.2.2
  req.timestamp + 1 < 2 ^ 32 ∧
  inputOffset + 4 < 2 ^ 32 ∧
  outputOffset + 2 < 2 ^ 32 ∧
  (shouldProcess = true →
    req.auxByte = expectedAuxByte ∧ req.address = expectedAddress)

/-! ## Fast modular exponentiation

`npowMod m a fuel k` computes `a ^ k % m` by binary splitting with a
structural fuel argument, so that the kernel can evaluate the modular
exponentiations appearing in the primality certificates below. -/

def npowMod (m a : ℕ) : ℕ → ℕ → ℕ
  | 0, _ => 1 % m
  | fuel + 1, k =>
      if k = 0 then 1 % m
      else
        let h := npowMod m a fuel (k / 2)
        if k % 2 = 0 then h * h % m else h * h % m * a % m

/-! ## Helper lemmas -/

theorem digitsVal_succ (b m k : ℕ) :
    digitsVal b (m + 1) k = digitsVal b m k + b ^ m * (k / b ^ m % b) := by
  simp [digitsVal, List.range_succ]

theorem digitsVal_eq_mod (b m k : ℕ) : digitsVal b m k = k % b ^ m := by
  induction m with
  | zero => simp [digitsVal, Nat.mod_one]
  | succ m ih =>
      rw [digitsVal_succ, ih, pow_succ, Nat.mod_mul]

theorem buildTableAux_length {G : Type} [AddCommGroup G] (P : G) :
    ∀ (m : ℕ) (tmp : G), (buildTableAux P tmp m).length = m := by
  intro m
  induction m with
  | zero => intro tmp; rfl
  | succ m ih => intro tmp; simp [buildTableAux, ih]

theorem buildTableAux_getD {G : Type} [AddCommGroup G] (P : G) :
    ∀ (m : ℕ) (tmp : G) (i : ℕ), i < m →
      (buildTableAux P tmp m).getD i 0 = tmp + (i + 1) • P := by
  intro m
  induction m with
  | zero => intro tmp i hi; omega
  | succ m ih =>
      intro tmp i hi
      match i with
      | 0 => simp [buildTableAux]
      | j + 1 =>
          have hj : j < m := by omega
          have h := ih (tmp + P) j hj
          simp only [buildTableAux, List.getD_cons_succ, h, succ_nsmul]
          abel

theorem buildTable_length {G : Type} [AddCommGroup G] (P : G) :
    (buildTable P).length = 15 := by
  simp [buildTable, buildTableAux_length]

theorem buildTable_getD {G : Type} [AddCommGroup G] (P : G) (i : ℕ)
    (hi : i < 15) : (buildTable P).getD i 0 = (i + 1) • P := by
  match i with
  | 0 => simp [buildTable]
  | j + 1 =>
      have hj : j < 14 := by omega
      have h := buildTableAux_getD P 14 P j hj
      simp only [buildTable, List.getD_cons_succ, h, succ_nsmul]
      abel

theorem scanSelect_eq {G : Type} [AddCommGroup G] (tbl : List G) (w : ℕ)
    (hw : w < 16) :
    scanSelect tbl w = tbl.getD (if w = 0 then 0 else w - 1) 0 := by
  have hr : List.range' 1 14 = [1, 2, 3, 4, 5, 6, 7, 8, 9, 10, 11, 12, 13, 14] := rfl
  rw [scanSelect, hr]
  interval_cases w <;> simp

theorem w4CondAdd_eq {G : Type} [AddCommGroup G] (Q : G) (tbl : List G)
    (htbl : ∀ i, i < 15 → tbl.getD i 0 = (i + 1) • Q) (acc : G) (w : ℕ)
    (hw : w < 16) : w4CondAdd tbl acc w = acc + w • Q := by
  rcases Nat.eq_zero_or_pos w with h0 | hpos
  · simp [w4CondAdd, h0]
  · have hne : w ≠ 0 := by omega
    rw [w4CondAdd, if_neg hne, scanSelect_eq tbl w hw, if_neg hne,
      htbl (w - 1) (by omega)]
    congr 2
    omega

theorem w4Loop_aux {G : Type} [AddCommGroup G] (tbl etbl : List G)
    (Q1 Q2 : G)
    (h1 : ∀ i, i < 15 → tbl.getD i 0 = (i + 1) • Q1)
    (h2 : ∀ i, i < 15 → etbl.getD i 0 = (i + 1) • Q2) (k1 k2 : ℕ) :
    ∀ r, r ≤ 32 → ∀ acc : G,
      (List.range' (32 - r) (r + 1)).foldl (w4LoopStep tbl etbl k1 k2) acc =
        16 ^ r • acc + (k1 % 16 ^ (r + 1)) • Q1 + (k2 % 16 ^ (r + 1)) • Q2 := by
  intro r
  induction r with
  | zero =>
      intro _ acc
      have hw1 : k1 % 16 < 16 := Nat.mod_lt _ (by norm_num)
      have hw2 : k2 % 16 < 16 := Nat.mod_lt _ (by norm_num)
      have hwin1 : window4 k1 32 = k1 % 16 := by simp [window4]
      have hwin2 : window4 k2 32 = k2 % 16 := by simp [window4]
      show w4LoopStep tbl etbl k1 k2 acc 32 =
        16 ^ 0 • acc + (k1 % 16 ^ 1) • Q1 + (k2 % 16 ^ 1) • Q2
      rw [w4LoopStep]
      simp only [hwin1, hwin2]
      rw [if_neg (by omega : ¬(32 : ℕ) ≠ 32)]
      rw [w4CondAdd_eq Q1 tbl h1 acc _ hw1,
        w4CondAdd_eq Q2 etbl h2 _ _ hw2]
      simp [pow_one]
  | succ r ih =>
      intro hr acc
      have hr' : r ≤ 32 := by omega
      have h32 : 32 - (r + 1) + 1 = 32 - r := by omega
      have hsplit : List.range' (32 - (r + 1)) (r + 1 + 1) =
          (32 - (r + 1)) :: List.range' (32 - r) (r + 1) := by
        rw [List.range'_succ, h32]
      rw [hsplit, List.foldl_cons, ih hr']
      have hidx : 32 - (r + 1) ≠ 32 := by omega
      have hexp : 32 - (32 - (r + 1)) = r + 1 := by omega
      have hw1 : window4 k1 (32 - (r + 1)) = k1 / 16 ^ (r + 1) % 16 := by
        rw [window4, hexp]
      have hw2 : window4 k2 (32 - (r + 1)) = k2 / 16 ^ (r + 1) % 16 := by
        rw [window4, hexp]
      have hb1 : k1 / 16 ^ (r + 1) % 16 < 16 := Nat.mod_lt _ (by norm_num)
      have hb2 : k2 / 16 ^ (r + 1) % 16 < 16 := Nat.mod_lt _ (by norm_num)
      rw [w4LoopStep, if_pos hidx]
      simp only [hw1, hw2]
      rw [w4CondAdd_eq Q1 tbl h1 acc _ hb1, w4CondAdd_eq Q2 etbl h2 _ _ hb2]
      have hdbl : ∀ x : G, 2 • (2 • (2 • (2 • x))) = 16 • x := by
        intro x
        rw [smul_smul, smul_smul, smul_smul]
        norm_num
      rw [hdbl, smul_smul]
      rw [show (16 : ℕ) ^ r * 16 = 16 ^ (r + 1) from by ring]
      rw [smul_add, smul_add, smul_smul, smul_smul]
      have hpow : (16 : ℕ) ^ (r + 1 + 1) = 16 ^ (r + 1) * 16 := by ring
      have hm1 : 16 ^ (r + 1) * (k1 / 16 ^ (r + 1) % 16) + k1 % 16 ^ (r + 1) =
          k1 % 16 ^ (r + 1 + 1) := by
        rw [hpow, Nat.mod_mul]
        ring
      have hm2 : 16 ^ (r + 1) * (k2 / 16 ^ (r + 1) % 16) + k2 % 16 ^ (r + 1) =
          k2 % 16 ^ (r + 1 + 1) := by
        rw [hpow, Nat.mod_mul]
        ring
      rw [← hm1, ← hm2, add_nsmul, add_nsmul]
      abel

theorem w4Loop_spec {G : Type} [AddCommGroup G] (tbl etbl : List G)
    (Q1 Q2 : G)
    (h1 : ∀ i, i < 15 → tbl.getD i 0 = (i + 1) • Q1)
    (h2 : ∀ i, i < 15 → etbl.getD i 0 = (i + 1) • Q2) (k1 k2 : ℕ) :
    w4Loop tbl etbl k1 k2 =
      (k1 % 16 ^ 33) • Q1 + (k2 % 16 ^ 33) • Q2 := by
  have h := w4Loop_aux tbl etbl Q1 Q2 h1 h2 k1 k2 32 (le_refl 32) 0
  rw [w4Loop, List.range_eq_range']
  rw [show (0 : ℕ) = 32 - 32 from rfl, show (33 : ℕ) = 32 + 1 from rfl, h]
  simp

set_option maxRecDepth 16000 in
theorem glv_K1_int_bound (s : ℕ) (hs : s < secpN) :
    -((2 : ℤ) ^ 132 - 1) ≤
        (s : ℤ) - (glvC1 s : ℤ) * (A1 : ℕ) - (glvC2 s : ℤ) * (A2 : ℕ) ∧
      (s : ℤ) - (glvC1 s : ℤ) * (A1 : ℕ) - (glvC2 s : ℤ) * (A2 : ℕ) ≤
        (2 : ℤ) ^ 132 - 1 := by
  have hd1 := Nat.div_add_mod (s * A1 + MODULUS_MINUS_ONE_DIV_TWO) (2 ^ 256)
  have hd2 := Nat.div_add_mod (s * B1 + MODULUS_MINUS_ONE_DIV_TWO) (2 ^ 256)
  have hr1lt : (s * A1 + MODULUS_MINUS_ONE_DIV_TWO) % 2 ^ 256 < 2 ^ 256 :=
    Nat.mod_lt _ (by norm_num)
  have hr2lt : (s * B1 + MODULUS_MINUS_ONE_DIV_TWO) % 2 ^ 256 < 2 ^ 256 :=
    Nat.mod_lt _ (by norm_num)
  have hc1 : glvC1 s = (s * A1 + MODULUS_MINUS_ONE_DIV_TWO) / 2 ^ 256 := rfl
  have hc2 : glvC2 s = (s * B1 + MODULUS_MINUS_ONE_DIV_TWO) / 2 ^ 256 := rfl
  have e1 : (2 : ℤ) ^ 256 * (glvC1 s : ℤ) +
      ((s * A1 + MODULUS_MINUS_ONE_DIV_TWO) % 2 ^ 256 : ℕ) =
      (s : ℤ) * (A1 : ℕ) + (MODULUS_MINUS_ONE_DIV_TWO : ℕ) := by
    rw [hc1]
    exact_mod_cast hd1
  have e2 : (2 : ℤ) ^ 256 * (glvC2 s : ℤ) +
      ((s * B1 + MODULUS_MINUS_ONE_DIV_TWO) % 2 ^ 256 : ℕ) =
      (s : ℤ) * (B1 : ℕ) + (MODULUS_MINUS_ONE_DIV_TWO : ℕ) := by
    rw [hc2]
    exact_mod_cast hd2
  have hK : ((s : ℤ) - (glvC1 s : ℤ) * (A1 : ℕ) - (glvC2 s : ℤ) * (A2 : ℕ)) *
      2 ^ 256 =
      (s : ℤ) * ((2 : ℤ) ^ 256 - (A1 : ℕ) * (A1 : ℕ) - (A2 : ℕ) * (B1 : ℕ))
        - (MODULUS_MINUS_ONE_DIV_TWO : ℕ) * ((A1 : ℕ) + (A2 : ℕ))
        + ((s * A1 + MODULUS_MINUS_ONE_DIV_TWO) % 2 ^ 256 : ℕ) * (A1 : ℕ)
        + ((s * B1 + MODULUS_MINUS_ONE_DIV_TWO) % 2 ^ 256 : ℕ) * (A2 : ℕ) := by
    linear_combination (-(A1 : ℤ)) * e1 + (-(A2 : ℤ)) * e2
  have hsz : (s : ℤ) ≤ (secpN : ℕ) - 1 := by
    have : (s : ℤ) < (secpN : ℕ) := by exact_mod_cast hs
    linarith
  have hs0 : (0 : ℤ) ≤ (s : ℤ) := Int.natCast_nonneg _
  have hr1z : ((s * A1 + MODULUS_MINUS_ONE_DIV_TWO) % 2 ^ 256 : ℕ) ≤
      ((2 : ℤ) ^ 256 - 1) := by
    have : (((s * A1 + MODULUS_MINUS_ONE_DIV_TWO) % 2 ^ 256 : ℕ) : ℤ) <
        (2 : ℤ) ^ 256 := by exact_mod_cast hr1lt
    linarith
  have hr2z : ((s * B1 + MODULUS_MINUS_ONE_DIV_TWO) % 2 ^ 256 : ℕ) ≤
      ((2 : ℤ) ^ 256 - 1) := by
    have : (((s * B1 + MODULUS_MINUS_ONE_DIV_TWO) % 2 ^ 256 : ℕ) : ℤ) <
        (2 : ℤ) ^ 256 := by exact_mod_cast hr2lt
    linarith
  have hr10 : (0 : ℤ) ≤ ((s * A1 + MODULUS_MINUS_ONE_DIV_TWO) % 2 ^ 256 : ℕ) :=
    Int.natCast_nonneg _
  have hr20 : (0 : ℤ) ≤ ((s * B1 + MODULUS_MINUS_ONE_DIV_TWO) % 2 ^ 256 : ℕ) :=
    Int.natCast_nonneg _
  have hub : ((s : ℤ) - (glvC1 s : ℤ) * (A1 : ℕ) - (glvC2 s : ℤ) * (A2 : ℕ)) *
      2 ^ 256 ≤ ((2 : ℤ) ^ 132 - 1) * 2 ^ 256 := by
    rw [hK]
    simp only [A1, A2, B1, MODULUS_MINUS_ONE_DIV_TWO, secpN] at hsz hr1z hr2z hr10 hr20 ⊢
    push_cast at hsz hr1z hr2z hr10 hr20 ⊢
    linarith
  have hlb : (-((2 : ℤ) ^ 132 - 1)) * 2 ^ 256 ≤
      ((s : ℤ) - (glvC1 s : ℤ) * (A1 : ℕ) - (glvC2 s : ℤ) * (A2 : ℕ)) *
      2 ^ 256 := by
    rw [hK]
    simp only [A1, A2, B1, MODULUS_MINUS_ONE_DIV_TWO, secpN] at hsz hr1z hr2z hr10 hr20 ⊢
    push_cast at hsz hr1z hr2z hr10 hr20 ⊢
    linarith
  have hpos : (0 : ℤ) < 2 ^ 256 := by positivity
  constructor
  · exact le_of_mul_le_mul_right hlb hpos
  · exact le_of_mul_le_mul_right hub hpos

set_option maxRecDepth 16000 in
theorem glv_K2_int_bound (s : ℕ) :
    -((2 : ℤ) ^ 132 - 1) ≤
        (glvC1 s : ℤ) * (B1 : ℕ) - (glvC2 s : ℤ) * (A1 : ℕ) ∧
      (glvC1 s : ℤ) * (B1 : ℕ) - (glvC2 s : ℤ) * (A1 : ℕ) ≤
        (2 : ℤ) ^ 132 - 1 := by
  have hd1 := Nat.div_add_mod (s * A1 + MODULUS_MINUS_ONE_DIV_TWO) (2 ^ 256)
  have hd2 := Nat.div_add_mod (s * B1 + MODULUS_MINUS_ONE_DIV_TWO) (2 ^ 256)
  have hr1lt : (s * A1 + MODULUS_MINUS_ONE_DIV_TWO) % 2 ^ 256 < 2 ^ 256 :=
    Nat.mod_lt _ (by norm_num)
  have hr2lt : (s * B1 + MODULUS_MINUS_ONE_DIV_TWO) % 2 ^ 256 < 2 ^ 256 :=
    Nat.mod_lt _ (by norm_num)
  have hc1 : glvC1 s = (s * A1 + MODULUS_MINUS_ONE_DIV_TWO) / 2 ^ 256 := rfl
  have hc2 : glvC2 s = (s * B1 + MODULUS_MINUS_ONE_DIV_TWO) / 2 ^ 256 := rfl
  have e1 : (2 : ℤ) ^ 256 * (glvC1 s : ℤ) +
      ((s * A1 + MODULUS_MINUS_ONE_DIV_TWO) % 2 ^ 256 : ℕ) =
      (s : ℤ) * (A1 : ℕ) + (MODULUS_MINUS_ONE_DIV_TWO : ℕ) := by
    rw [hc1]
    exact_mod_cast hd1
  have e2 : (2 : ℤ) ^ 256 * (glvC2 s : ℤ) +
      ((s * B1 + MODULUS_MINUS_ONE_DIV_TWO) % 2 ^ 256 : ℕ) =
      (s : ℤ) * (B1 : ℕ) + (MODULUS_MINUS_ONE_DIV_TWO : ℕ) := by
    rw [hc2]
    exact_mod_cast hd2
  have hK : ((glvC1 s : ℤ) * (B1 : ℕ) - (glvC2 s : ℤ) * (A1 : ℕ)) * 2 ^ 256 =
      (MODULUS_MINUS_ONE_DIV_TWO : ℕ) * ((B1 : ℕ) - (A1 : ℕ) : ℤ)
        - ((s * A1 + MODULUS_MINUS_ONE_DIV_TWO) % 2 ^ 256 : ℕ) * (B1 : ℕ)
        + ((s * B1 + MODULUS_MINUS_ONE_DIV_TWO) % 2 ^ 256 : ℕ) * (A1 : ℕ) := by
    linear_combination (B1 : ℤ) * e1 + (-(A1 : ℤ)) * e2
  have hr1z : (((s * A1 + MODULUS_MINUS_ONE_DIV_TWO) % 2 ^ 256 : ℕ) : ℤ) ≤
      (2 : ℤ) ^ 256 - 1 := by
    have : (((s * A1 + MODULUS_MINUS_ONE_DIV_TWO) % 2 ^ 256 : ℕ) : ℤ) <
        (2 : ℤ) ^ 256 := by exact_mod_cast hr1lt
    linarith
  have hr2z : (((s * B1 + MODULUS_MINUS_ONE_DIV_TWO) % 2 ^ 256 : ℕ) : ℤ) ≤
      (2 : ℤ) ^ 256 - 1 := by
    have : (((s * B1 + MODULUS_MINUS_ONE_DIV_TWO) % 2 ^ 256 : ℕ) : ℤ) <
        (2 : ℤ) ^ 256 := by exact_mod_cast hr2lt
    linarith
  have hr10 : (0 : ℤ) ≤ ((s * A1 + MODULUS_MINUS_ONE_DIV_TWO) % 2 ^ 256 : ℕ) :=
    Int.natCast_nonneg _
  have hr20 : (0 : ℤ) ≤ ((s * B1 + MODULUS_MINUS_ONE_DIV_TWO) % 2 ^ 256 : ℕ) :=
    Int.natCast_nonneg _
  have hpos : (0 : ℤ) < 2 ^ 256 := by positivity
  constructor
  · apply le_of_mul_le_mul_right ?_ hpos
    rw [hK]
    simp only [A1, B1, MODULUS_MINUS_ONE_DIV_TWO] at hr1z hr2z hr10 hr20 ⊢
    push_cast at hr1z hr2z hr10 hr20 ⊢
    linarith
  · apply le_of_mul_le_mul_right ?_ hpos
    rw [hK]
    simp only [A1, B1, MODULUS_MINUS_ONE_DIV_TWO] at hr1z hr2z hr10 hr20 ⊢
    push_cast at hr1z hr2z hr10 hr20 ⊢
    linarith

theorem selected_val_of_int_bound (n : ℕ) (hn : 2 ^ 133 < n) (K : ℤ)
    (hlo : -((2 : ℤ) ^ 132 - 1) ≤ K) (hhi : K ≤ (2 : ℤ) ^ 132 - 1) :
    ((2 ^ 132 - 1 < ((K : ZMod n)).val) ↔ K < 0) ∧
      (if 2 ^ 132 - 1 < ((K : ZMod n)).val then (-(K : ZMod n)).val
        else ((K : ZMod n)).val) ≤ 2 ^ 132 - 1 := by
  haveI : NeZero n := ⟨by omega⟩
  have hnz : (2 : ℤ) ^ 133 < (n : ℤ) := by exact_mod_cast hn
  have hv : (((K : ZMod n)).val : ℤ) = K % n := ZMod.val_intCast K
  rcases le_or_lt 0 K with h0 | h0
  · have hmod : K % n = K := Int.emod_eq_of_lt h0 (by omega)
    rw [hmod] at hv
    have hvle : ((K : ZMod n)).val ≤ 2 ^ 132 - 1 := by omega
    constructor
    · omega
    · rw [if_neg (by omega)]
      exact hvle
  · have h1 : (K + (n : ℤ)) % n = K % n := Int.add_emod_self
    have h2 : (K + (n : ℤ)) % n = K + n :=
      Int.emod_eq_of_lt (by omega) (by omega)
    have hmod : K % n = K + n := by omega
    rw [hmod] at hv
    have hneg : (-(K : ZMod n)) = ((-K : ℤ) : ZMod n) := by push_cast; ring
    have hv2 : (((-K : ℤ) : ZMod n)).val = (-K).toNat := by
      have h3 : (-K) % n = -K := Int.emod_eq_of_lt (by omega) (by omega)
      have := ZMod.val_intCast (n := n) (-K)
      omega
    constructor
    · omega
    · rw [if_pos (by omega), hneg, hv2]
      omega

theorem glvRawK1_cast (s : ZMod secpN) :
    glvRawK1 s =
      (((s.val : ℤ) - (glvC1 s.val : ℤ) * (A1 : ℕ)
        - (glvC2 s.val : ℤ) * (A2 : ℕ) : ℤ) : ZMod secpN) := by
  haveI : NeZero secpN := ⟨by norm_num [secpN]⟩
  push_cast
  rw [ZMod.natCast_val, ZMod.cast_id]
  rfl

theorem glvRawK2_cast (s : ZMod secpN) :
    glvRawK2 s =
      (((glvC1 s.val : ℤ) * (B1 : ℕ)
        - (glvC2 s.val : ℤ) * (A1 : ℕ) : ℤ) : ZMod secpN) := by
  push_cast
  rfl

theorem zsmul_congr {G : Type} [AddCommGroup G] (P : G)
    (hn : (secpN : ℤ) • P = 0) (a b : ℤ)
    (hab : ((a : ZMod secpN)) = ((b : ZMod secpN))) : a • P = b • P := by
  have hmod : a ≡ b [ZMOD (secpN : ℤ)] := by
    have := (ZMod.intCast_eq_intCast_iff a b secpN).mp hab
    exact this
  obtain ⟨k, hk⟩ := Int.ModEq.dvd hmod
  have : b = a + (secpN : ℤ) * k := by linarith
  rw [this, add_zsmul, mul_comm, mul_zsmul, hn, smul_zero, add_zero]

/-- Claim C3: in the GLV scalar decomposition each of k1 and k2 is
compared against the fixed bound `MAX_DECOMPOSITION_VALUE` (whose value
is `2^132 - 1`); an out-of-bound value is replaced by its modular
negation with the "was negated" flag recorded true, otherwise it is kept
with the flag false; and both returned halves are within the bound. -/
theorem glv_decomposition_range_check (s : ZMod secpN) :
    MAX_DECOMPOSITION_VALUE = 2 ^ 132 - 1 ∧
    glvDecompose s =
      (decide (MAX_DECOMPOSITION_VALUE < (glvRawK1 s).val),
       if MAX_DECOMPOSITION_VALUE < (glvRawK1 s).val then -glvRawK1 s
       else glvRawK1 s,
       decide (MAX_DECOMPOSITION_VALUE < (glvRawK2 s).val),
       if MAX_DECOMPOSITION_VALUE < (glvRawK2 s).val then -glvRawK2 s
       else glvRawK2 s) ∧
    (glvDecompose s).2.1.val ≤ MAX_DECOMPOSITION_VALUE ∧
    (glvDecompose s).2.2.2.val ≤ MAX_DECOMPOSITION_VALUE := by
  haveI : NeZero secpN := ⟨by norm_num [secpN]⟩
  have hmax : MAX_DECOMPOSITION_VALUE = 2 ^ 132 - 1 := by
    norm_num [ MAX_DECOMPOSITION_VALUE]
  have hsval : s.val < secpN := ZMod.val_lt s
  have h1 := glv_K1_int_bound s.val hsval
  have h2 := glv_K2_int_bound s.val
  have hc1 := glvRawK1_cast s
  have hc2 := glvRawK2_cast s
  have hsel1 := selected_val_of_int_bound secpN (by norm_num [secpN]) _ h1.1 h1.2
  have hsel2 := selected_val_of_int_bound secpN (by norm_num [secpN]) _ h2.1 h2.2
  refine ⟨hmax, ?_, ?_, ?_⟩
  · simp [glvDecompose]
  · simp only [glvDecompose, decide_eq_true_eq]
    rw [hmax, hc1, apply_ite ZMod.val]
    exact hsel1.2
  · simp only [glvDecompose, decide_eq_true_eq]
    rw [hmax, hc2, apply_ite ZMod.val]
    exact hsel2.2

theorem mapped_table_getD {G : Type} [AddCommGroup G] (P : G) (f : Bool)
    (i : ℕ) (hi : i < 15) :
    ((buildTable P).map (fun Q => if f then -Q else Q)).getD i 0 =
      (i + 1) • (if f then -P else P) := by
  have hlen : ((buildTable P).map (fun Q => if f then -Q else Q)).length = 15 := by
    simp [buildTable_length]
  rw [List.getD_eq_getElem _ _ (by omega), List.getElem_map,
    ← List.getD_eq_getElem (buildTable P) 0 (by rw [buildTable_length]; omega),
    buildTable_getD P i hi]
  cases f with
  | false => simp
  | true => simp [smul_neg]

theorem mapped_endo_table_getD {G : Type} [AddCommGroup G] (P : G)
    (φ : G → G) (hφ : ∀ Q : G, φ Q = GLV_LAMBDA • Q) (f : Bool) (i : ℕ)
    (hi : i < 15) :
    (((buildTable P).map φ).map (fun Q => if f then -Q else Q)).getD i 0 =
      (i + 1) • (if f then -(GLV_LAMBDA • P) else GLV_LAMBDA • P) := by
  have hlen : (((buildTable P).map φ).map (fun Q => if f then -Q else Q)).length = 15 := by
    simp [buildTable_length]
  rw [List.getD_eq_getElem _ _ (by omega), List.getElem_map, List.getElem_map,
    ← List.getD_eq_getElem (buildTable P) 0 (by rw [buildTable_length]; omega),
    buildTable_getD P i hi, hφ]
  have hcomm : GLV_LAMBDA • (i + 1) • P = (i + 1) • GLV_LAMBDA • P :=
    smul_comm _ _ _
  cases f with
  | false => simp [hcomm]
  | true => simp [hcomm, smul_neg]

theorem glvDecompose_val_le (s : ZMod secpN) :
    (glvDecompose s).2.1.val ≤ 2 ^ 132 - 1 ∧
      (glvDecompose s).2.2.2.val ≤ 2 ^ 132 - 1 := by
  haveI : NeZero secpN := ⟨by norm_num [secpN]⟩
  have hmax : MAX_DECOMPOSITION_VALUE = 2 ^ 132 - 1 := by
    norm_num [ MAX_DECOMPOSITION_VALUE]
  have hsval : s.val < secpN := ZMod.val_lt s
  have hb1 := glv_K1_int_bound s.val hsval
  have hb2 := glv_K2_int_bound s.val
  have hc1 := glvRawK1_cast s
  have hc2 := glvRawK2_cast s
  have hsel1 := selected_val_of_int_bound secpN (by norm_num [secpN]) _ hb1.1 hb1.2
  have hsel2 := selected_val_of_int_bound secpN (by norm_num [secpN]) _ hb2.1 hb2.2
  constructor
  · simp only [glvDecompose, decide_eq_true_eq]
    rw [hmax, hc1, apply_ite ZMod.val]
    exact hsel1.2
  · simp only [glvDecompose, decide_eq_true_eq]
    rw [hmax, hc2, apply_ite ZMod.val]
    exact hsel2.2

theorem contrib_eq {G : Type} [AddCommGroup G] (Pb : G)
    (hzb : (secpN : ℤ) • Pb = 0) (raw : ZMod secpN) (f : Bool) (K : ℤ)
    (hraw : raw = (K : ZMod secpN)) :
    ((if f then -raw else raw).val) • (if f then -Pb else Pb) = K • Pb := by
  haveI : NeZero secpN := ⟨by norm_num [secpN]⟩
  rw [← natCast_zsmul]
  cases f with
  | false =>
      simp only [Bool.false_eq_true, if_false]
      apply zsmul_congr Pb hzb
      rw [Int.cast_natCast, ZMod.natCast_val, ZMod.cast_id, hraw]
  | true =>
      simp only [if_true]
      rw [smul_neg, ← neg_zsmul]
      apply zsmul_congr Pb hzb
      push_cast
      rw [ZMod.natCast_val, ZMod.cast_id, hraw]
      ring

theorem glv_lambda_mul_B1 :
    (GLV_LAMBDA : ZMod secpN) * (B1 : ℕ) = ((A1 : ℕ) : ZMod secpN) := by
  have h1 : ((GLV_LAMBDA * B1 : ℕ) : ZMod secpN) =
      (((GLV_LAMBDA * B1) % secpN : ℕ) : ZMod secpN) :=
    (ZMod.natCast_mod _ _).symm
  have h2 : (GLV_LAMBDA * B1) % secpN = A1 := by
    norm_num [GLV_LAMBDA, B1, A1, secpN]
  calc (GLV_LAMBDA : ZMod secpN) * (B1 : ℕ) =
      ((GLV_LAMBDA * B1 : ℕ) : ZMod secpN) := by push_cast; ring
    _ = ((A1 : ℕ) : ZMod secpN) := by rw [h1, h2]

theorem glv_lambda_mul_A1 :
    (GLV_LAMBDA : ZMod secpN) * (A1 : ℕ) = -((A2 : ℕ) : ZMod secpN) := by
  have h1 : ((GLV_LAMBDA * A1 + A2 : ℕ) : ZMod secpN) =
      (((GLV_LAMBDA * A1 + A2) % secpN : ℕ) : ZMod secpN) :=
    (ZMod.natCast_mod _ _).symm
  have h2 : (GLV_LAMBDA * A1 + A2) % secpN = 0 := by
    norm_num [GLV_LAMBDA, A1, A2, secpN]
  have h3 : ((GLV_LAMBDA * A1 + A2 : ℕ) : ZMod secpN) = 0 := by
    rw [h1, h2]
    simp
  have h4 : (GLV_LAMBDA : ZMod secpN) * (A1 : ℕ) + ((A2 : ℕ) : ZMod secpN) = 0 := by
    push_cast at h3
    linear_combination h3
  linear_combination h4

/-- Claim C2: for every curve point and every reduced scalar, the width-4
windowed multiplication reconstructs `k1*P + k2*φ(P)` with the recorded
negation flags applied to the precomputed tables, and the result equals
`s*P` exactly.  The external curve gadget is abstracted as an additive
commutative group in which `P` is annihilated by the group order, and the
`BETA` x-coordinate map as an endomorphism `φ` acting as the scalar
`GLV_LAMBDA`. -/
theorem width4_windowed_multiplication_glv_round_trip {G : Type}
    [AddCommGroup G] (P : G) (φ : G → G) (hn : secpN • P = 0)
    (hφ : ∀ Q : G, φ Q = GLV_LAMBDA • Q) (s : ZMod secpN) :
    width4WindowedMultiplication φ P s =
        (glvDecompose s).2.1.val • (if (glvDecompose s).1 then -P else P) +
          (glvDecompose s).2.2.2.val •
            (if (glvDecompose s).2.2.1 then -(φ P) else φ P) ∧
      width4WindowedMultiplication φ P s = s.val • P := by
  haveI : NeZero secpN := ⟨by norm_num [secpN]⟩
  have hz : (secpN : ℤ) • P = 0 := by rw [natCast_zsmul]; exact hn
  have hloop := w4Loop_spec
      ((buildTable P).map (fun Q => if (glvDecompose s).1 then -Q else Q))
      (((buildTable P).map φ).map
        (fun Q => if (glvDecompose s).2.2.1 then -Q else Q))
      (if (glvDecompose s).1 then -P else P)
      (if (glvDecompose s).2.2.1 then -(GLV_LAMBDA • P) else GLV_LAMBDA • P)
      (fun i hi => mapped_table_getD P _ i hi)
      (fun i hi => mapped_endo_table_getD P φ hφ _ i hi)
      ((glvDecompose s).2.1.val) ((glvDecompose s).2.2.2.val)
  have hvals := glvDecompose_val_le s
  have h16 : (16 : ℕ) ^ 33 = 2 ^ 132 := by norm_num
  have hm1 : (glvDecompose s).2.1.val % 16 ^ 33 = (glvDecompose s).2.1.val :=
    Nat.mod_eq_of_lt (by rw [h16]; have := hvals.1; omega)
  have hm2 : (glvDecompose s).2.2.2.val % 16 ^ 33 = (glvDecompose s).2.2.2.val :=
    Nat.mod_eq_of_lt (by rw [h16]; have := hvals.2; omega)
  rw [hm1, hm2] at hloop
  have hdef : width4WindowedMultiplication φ P s =
      w4Loop
        ((buildTable P).map (fun Q => if (glvDecompose s).1 then -Q else Q))
        (((buildTable P).map φ).map
          (fun Q => if (glvDecompose s).2.2.1 then -Q else Q))
        ((glvDecompose s).2.1.val) ((glvDecompose s).2.2.2.val) := rfl
  have hrecon : width4WindowedMultiplication φ P s =
      (glvDecompose s).2.1.val • (if (glvDecompose s).1 then -P else P) +
        (glvDecompose s).2.2.2.val •
          (if (glvDecompose s).2.2.1 then -(GLV_LAMBDA • P)
            else GLV_LAMBDA • P) := by
    rw [hdef, hloop]
  constructor
  · rw [hrecon, hφ P]
  · rw [hrecon]
    have hc1 := glvRawK1_cast s
    have hc2 := glvRawK2_cast s
    have e1 : (glvDecompose s).2.1 =
        (if (glvDecompose s).1 then -(glvRawK1 s) else glvRawK1 s) := rfl
    have e2 : (glvDecompose s).2.2.2 =
        (if (glvDecompose s).2.2.1 then -(glvRawK2 s) else glvRawK2 s) := rfl
    have hlamP : (GLV_LAMBDA • P : G) = (GLV_LAMBDA : ℤ) • P :=
      (natCast_zsmul P GLV_LAMBDA).symm
    have hz2 : (secpN : ℤ) • ((GLV_LAMBDA : ℤ) • P) = 0 := by
      rw [smul_comm, hz, smul_zero]
    rw [hlamP, e1, e2,
      contrib_eq P hz (glvRawK1 s) ((glvDecompose s).1) _ hc1,
      contrib_eq ((GLV_LAMBDA : ℤ) • P) hz2 (glvRawK2 s)
        ((glvDecompose s).2.2.1) _ hc2]
    rw [smul_smul, ← add_zsmul]
    have hfinal :
        ((((s.val : ℤ) - (glvC1 s.val : ℤ) * (A1 : ℕ)
            - (glvC2 s.val : ℤ) * (A2 : ℕ))
          + ((glvC1 s.val : ℤ) * (B1 : ℕ) - (glvC2 s.val : ℤ) * (A1 : ℕ))
              * (GLV_LAMBDA : ℤ) : ℤ) : ZMod secpN) =
          ((s.val : ℤ) : ZMod secpN) := by
      push_cast
      rw [ZMod.natCast_val, ZMod.cast_id]
      have hgoal : glvRawK1 s + glvRawK2 s * (GLV_LAMBDA : ZMod secpN) = s := by
        rw [glvRawK1, glvRawK2]
        linear_combination ((glvC1 s.val : ZMod secpN)) * glv_lambda_mul_B1
          - ((glvC2 s.val : ZMod secpN)) * glv_lambda_mul_A1
      rw [glvRawK1, glvRawK2] at hgoal
      linear_combination hgoal
    rw [zsmul_congr P hz _ _ hfinal, natCast_zsmul]

/-- Claim C4: in the 33-step window loop, a zero window value leaves the
accumulator unchanged for that operand; a non-zero window value `v`
selects table entry `v*P` (respectively `v*φ(P)`, with the negation flag
applied) by the linear equality scan; and the accumulator is doubled four
times after every step except the last. -/
theorem window_loop_step_behavior {G : Type} [AddCommGroup G] (P : G)
    (φ : G → G) (f : Bool) (tbl etbl : List G) (k1 k2 : ℕ) (acc : G)
    (v i : ℕ) :
    w4CondAdd tbl acc 0 = acc ∧
    (1 ≤ v → v ≤ 15 →
      scanSelect ((buildTable P).map (fun Q => if f then -Q else Q)) v =
        v • (if f then -P else P)) ∧
    ((∀ Q : G, φ Q = GLV_LAMBDA • Q) → 1 ≤ v → v ≤ 15 →
      scanSelect (((buildTable P).map φ).map (fun Q => if f then -Q else Q)) v =
        v • (if f then -(GLV_LAMBDA • P) else GLV_LAMBDA • P)) ∧
    (i < 32 → w4LoopStep tbl etbl k1 k2 acc i =
      2 • (2 • (2 • (2 • (w4CondAdd etbl
        (w4CondAdd tbl acc (window4 k1 i)) (window4 k2 i)))))) ∧
    w4LoopStep tbl etbl k1 k2 acc 32 =
      w4CondAdd etbl (w4CondAdd tbl acc (window4 k1 32)) (window4 k2 32) := by
  refine ⟨by simp [w4CondAdd], ?_, ?_, ?_, ?_⟩
  · intro h1 h15
    rw [scanSelect_eq _ v (by omega), if_neg (by omega),
      mapped_table_getD P f (v - 1) (by omega)]
    congr 1
    omega
  · intro hφ h1 h15
    rw [scanSelect_eq _ v (by omega), if_neg (by omega),
      mapped_endo_table_getD P φ hφ f (v - 1) (by omega)]
    congr 1
    omega
  · intro hi
    rw [w4LoopStep, if_pos (by omega)]
  · rw [w4LoopStep, if_neg (by omega)]

/-- Claim C5: in `fixed_base_mul` a zero byte at any position leaves the
accumulator unchanged (the looked-up table point is discarded rather than
an identity added), and a zero scalar yields the explicit zero point
(point at infinity) for every table, rather than an accumulated value. -/
theorem fixed_base_mul_zero_behavior {G : Type} [AddCommGroup G]
    (tbl : ℕ → ℕ → G) (acc : G) (pos : ℕ) :
    fixedBaseMul tbl (0 : ZMod secpN) = 0 ∧ fbStep tbl acc (pos, 0) = acc := by
  constructor
  · simp [fixedBaseMul]
  · simp [fbStep]

/-- Claim C1: for every call processed by the inner routine, the reported
validity bit equals NOT (OR of the eight collected exception flags, in
collection order), the emitted value is zero whenever any exception flag
is set (and the raw keccak-derived value otherwise), and the validity bit
itself is never masked. -/
theorem inner_routine_flags_and_masking {G : Type} [AddCommGroup G]
    (pm : PointModel G) (mz : Bool) (recid r s msgHash : ℕ)
    (vx vy vt : ZMod secpP) :
    (ecrecoverInner pm mz recid r s msgHash vx vy vt).allOk =
      !((ecrecoverInner pm mz recid r s msgHash vx vy vt).xOverflowError ||
        (ecrecoverInner pm mz recid r s msgHash vx vy vt).xNotInRange ||
        (ecrecoverInner pm mz recid r s msgHash vx vy vt).rIsZero ||
        (ecrecoverInner pm mz recid r s msgHash vx vy vt).sIsZero ||
        (ecrecoverInner pm mz recid r s msgHash vx vy vt).msgHashIsZero ||
        (ecrecoverInner pm mz recid r s msgHash vx vy vt).tIsZero ||
        (ecrecoverInner pm mz recid r s msgHash vx vy vt).tIsNonResidue ||
        (ecrecoverInner pm mz recid r s msgHash vx vy vt).resultIsInfinity) ∧
    (ecrecoverInner pm mz recid r s msgHash vx vy vt).written =
      (if ((ecrecoverInner pm mz recid r s msgHash vx vy vt).xOverflowError ||
            (ecrecoverInner pm mz recid r s msgHash vx vy vt).xNotInRange ||
            (ecrecoverInner pm mz recid r s msgHash vx vy vt).rIsZero ||
            (ecrecoverInner pm mz recid r s msgHash vx vy vt).sIsZero ||
            (ecrecoverInner pm mz recid r s msgHash vx vy vt).msgHashIsZero ||
            (ecrecoverInner pm mz recid r s msgHash vx vy vt).tIsZero ||
            (ecrecoverInner pm mz recid r s msgHash vx vy vt).tIsNonResidue ||
            (ecrecoverInner pm mz recid r s msgHash vx vy vt).resultIsInfinity) = true
        then 0
        else (ecrecoverInner pm mz recid r s msgHash vx vy vt).writtenUnmasked) := by
  obtain ⟨e1, e2, e3, e4, e5, e6, e7, e8, mf, wu, hres⟩ :
      ∃ e1 e2 e3 e4 e5 e6 e7 e8 mf wu,
        ecrecoverInner pm mz recid r s msgHash vx vy vt =
          { xOverflowError := e1, xNotInRange := e2, rIsZero := e3,
            sIsZero := e4, msgHashIsZero := e5, tIsZero := e6,
            tIsNonResidue := e7, resultIsInfinity := e8, msgHashFe := mf,
            writtenUnmasked := wu,
            anyException := [e1, e2, e3, e4, e5, e6, e7, e8].any id,
            allOk := !([e1, e2, e3, e4, e5, e6, e7, e8].any id),
            written :=
              if [e1, e2, e3, e4, e5, e6, e7, e8].any id then 0 else wu } :=
    ⟨_, _, _, _, _, _, _, _, _, _, rfl⟩
  rw [hres]
  simp [Bool.or_assoc]

/-- Claim C10: the compiled zero-message policy `ALLOW_ZERO_MESSAGE` is
true, so the message-hash-is-zero exception flag is the constant false
for every processed call, and the hash is converted without masking. -/
theorem allow_zero_message_policy {G : Type} [AddCommGroup G]
    (pm : PointModel G) (recid r s msgHash : ℕ) (vx vy vt : ZMod secpP) :
    ALLOW_ZERO_MESSAGE = true ∧
    (ecrecoverInner pm ALLOW_ZERO_MESSAGE recid r s msgHash vx vy vt).msgHashIsZero
      = false ∧
    (ecrecoverInner pm ALLOW_ZERO_MESSAGE recid r s msgHash vx vy vt).msgHashFe
      = convertUInt256ToFieldElement secpN msgHash := by
  refine ⟨rfl, ?_, ?_⟩ <;> simp [ecrecoverInner, ALLOW_ZERO_MESSAGE]

/-- Claim C8: the live request-queue and memory-queue states of one
instance are selected by the start flag without branching: the
component-wise conditional selection yields exactly the observable-input
states when start is true and exactly the carried hidden FSM states when
start is false — never a mixture — and the head commitments of the
externally supplied initial states are enforced trivial. -/
theorem entry_queue_state_selection (start : Bool)
    (inpReq inpMem fsmReq fsmMem : QueueState) :
    queueStateSelect start inpReq fsmReq =
        (if start then inpReq else fsmReq) ∧
      queueStateSelect start inpMem fsmMem =
        (if start then inpMem else fsmMem) ∧
      entryLiveStates start inpReq inpMem fsmReq fsmMem =
        (if start then (inpReq, inpMem) else (fsmReq, fsmMem)) ∧
      (entryInputConstraints inpReq inpMem ↔
        inpReq.head = 0 ∧ inpMem.head = 0) := by
  cases start <;>
    exact ⟨rfl, rfl, rfl, Iff.rfl⟩

/-- Claim C9: a processing cycle appends exactly four read queries (hash,
recovery id, r, s) at auto-incrementing input offsets tagged with the
request timestamp, followed by exactly two write queries (the success
flag as a 256-bit word, then the recovered value) at auto-incrementing
output offsets one timestamp later; an idle cycle appends nothing; the
routing fields are enforced only when processing; and every read of the
call carries a strictly smaller timestamp than every write. -/
theorem call_cycle_queries {G : Type} [AddCommGroup G] (pm : PointModel G)
    (req : LogRequest) (sp : Bool) (rv : List ℕ) (vx vy vt : ZMod secpP)
    (expectedAddress expectedAuxByte : ℕ) :
    cycleQueries pm req sp rv vx vy vt =
      (if sp then
        [{ timestamp := req.timestamp,
           memoryPage := (callParamsFromEncoding req.key).1,
           index := (callParamsFromEncoding req.key).2.1,
           rwFlag := false, isPtr := false, value := rv.getD 0 0 },
         { timestamp := req.timestamp,
           memoryPage := (callParamsFromEncoding req.key).1,
           index := (callParamsFromEncoding req.key).2.1 + 1,
           rwFlag := false, isPtr := false, value := rv.getD 1 0 },
         { timestamp := req.timestamp,
           memoryPage := (callParamsFromEncoding req.key).1,
           index := (callParamsFromEncoding req.key).2.1 + 2,
           rwFlag := false, isPtr := false, value := rv.getD 2 0 },
         { timestamp := req.timestamp,
           memoryPage := (callParamsFromEncoding req.key).1,
           index := (callParamsFromEncoding req.key).2.1 + 3,
           rwFlag := false, isPtr := false, value := rv.getD 3 0 },
         { timestamp := req.timestamp + 1,
           memoryPage := (callParamsFromEncoding req.key).2.2.1,
           index := (callParamsFromEncoding req.key).2.2.2,
           rwFlag := true, isPtr := false,
           value :=
             if (ecrecoverInner pm ALLOW_ZERO_MESSAGE (rv.getD 1 0 % 2 ^ 8)
                  (rv.getD 2 0) (rv.getD 3 0) (rv.getD 0 0) vx vy vt).allOk
             then 1 else 0 },
         { timestamp := req.timestamp + 1,
           memoryPage := (callParamsFromEncoding req.key).2.2.1,
           index := (callParamsFromEncoding req.key).2.2.2 + 1,
           rwFlag := true, isPtr := false,
           value :=
             (ecrecoverInner pm ALLOW_ZERO_MESSAGE (rv.getD 1 0 % 2 ^ 8)
               (rv.getD 2 0) (rv.getD 3 0) (rv.getD 0 0) vx vy vt).written }]
      else []) ∧
    (cycleConstraints req sp expectedAddress expectedAuxByte ↔
      (req.timestamp + 1 < 2 ^ 32 ∧
        (callParamsFromEncoding req.key).2.1 + 4 < 2 ^ 32 ∧
        (callParamsFromEncoding req.key).2.2.2 + 2 < 2 ^ 32 ∧
        (sp = true →
          req.auxByte = expectedAuxByte ∧ req.address = expectedAddress))) ∧
    (∀ qr ∈ cycleQueries pm req sp rv vx vy vt,
      ∀ qw ∈ cycleQueries pm req sp rv vx vy vt,
        qr.rwFlag = false → qw.rwFlag = true →
          qr.timestamp < qw.timestamp) := by
  refine ⟨rfl, Iff.rfl, ?_⟩
  intro qr hqr qw hqw hr hw
  cases sp with
  | false => simp [cycleQueries] at hqr
  | true =>
      simp only [cycleQueries, if_pos] at hqr hqw
      simp only [List.mem_cons, List.not_mem_nil, or_false] at hqr hqw
      rcases hqr with rfl | rfl | rfl | rfl | rfl | rfl <;>
        rcases hqw with rfl | rfl | rfl | rfl | rfl | rfl <;>
          simp_all

theorem u32_all_zero_iff (w : ℕ) :
    ((u32Limbs w).all (fun l => l == 0) = true) ↔ w % 2 ^ 256 = 0 := by
  have hall : ((u32Limbs w).all (fun l => l == 0) = true) ↔
      ∀ i, i < 8 → w / 2 ^ (32 * i) % 2 ^ 32 = 0 := by
    simp [u32Limbs, List.all_eq_true]
  have hdig : digitsVal (2 ^ 32) 8 w = w % 2 ^ 256 := by
    rw [digitsVal_eq_mod]
    norm_num
  rw [hall]
  constructor
  · intro h
    rw [← hdig]
    unfold digitsVal
    apply List.sum_eq_zero
    intro x hx
    simp only [List.mem_map, List.mem_range] at hx
    obtain ⟨j, hj, rfl⟩ := hx
    rw [show ((2 : ℕ) ^ 32) ^ j = 2 ^ (32 * j) from by rw [← pow_mul],
      h j hj, mul_zero]
  · intro h i hi
    obtain ⟨t, rfl⟩ := Nat.dvd_of_mod_eq_zero h
    have h1 : (2 : ℕ) ^ 256 = 2 ^ (32 * i) * 2 ^ (256 - 32 * i) := by
      rw [← pow_add]
      congr 1
      omega
    rw [h1, mul_assoc, Nat.mul_div_cancel_left _ (by positivity)]
    have h2 : (2 : ℕ) ^ (256 - 32 * i) = 2 ^ 32 * 2 ^ (224 - 32 * i) := by
      rw [← pow_add]
      congr 1
      omega
    rw [h2, mul_assoc]
    exact Nat.mul_mod_right _ _

theorem convert_element_val (m w : ℕ) (hw : w < 2 ^ 256) :
    ((digitsVal (2 ^ 16) 16 w : ℕ) : ZMod m) = (w : ZMod m) := by
  rw [digitsVal_eq_mod]
  rw [show ((2 : ℕ) ^ 16) ^ 16 = 2 ^ 256 from by norm_num]
  rw [Nat.mod_eq_of_lt hw]

/-- Claim C7 counterexample: the 256-bit word equal to the scalar-field
modulus itself represents the additive identity of the foreign field, yet
the masked conversion does not special-case it: the returned flag is
false and the returned element is zero, not one. -/
theorem convert_masked_counterexample :
    secpN < 2 ^ 256 ∧
      ((secpN : ℕ) : ZMod secpN) = 0 ∧
      (convertUInt256ToFieldElementMasked secpN secpN).2 = false ∧
      (convertUInt256ToFieldElementMasked secpN secpN).1 ≠ 1 := by
  haveI : Fact (1 < secpN) := ⟨by norm_num [secpN]⟩
  have hfl : ((u32Limbs secpN).all (fun l => l == 0)) = false := by decide
  refine ⟨by norm_num [secpN], ZMod.natCast_self secpN, ?_, ?_⟩
  · simp only [convertUInt256ToFieldElementMasked, hfl]
  · simp only [convertUInt256ToFieldElementMasked, hfl, Bool.false_eq_true,
      if_false]
    rw [convert_element_val secpN secpN (by norm_num [secpN]),
      ZMod.natCast_self]
    exact zero_ne_one

/-- Claim C7 (amended): the special case of the masked conversion
triggers exactly when the 256-bit input word is the zero word: then the
returned element is the constant one and the flag is true; otherwise the
returned element represents the input word in the foreign field and the
flag is false. -/
theorem convert_masked_zero_behavior (m w : ℕ) (hw : w < 2 ^ 256) :
    convertUInt256ToFieldElementMasked m w =
      (if w = 0 then 1 else (w : ZMod m), decide (w = 0)) := by
  have hz : ((u32Limbs w).all (fun l => l == 0)) = decide (w = 0) := by
    cases hb : (u32Limbs w).all (fun l => l == 0) with
    | true =>
        have h0 := (u32_all_zero_iff w).mp hb
        rw [Nat.mod_eq_of_lt hw] at h0
        simp [h0]
    | false =>
        have hne : w ≠ 0 := by
          intro h0
          subst h0
          have hc : ((u32Limbs 0).all (fun l => l == 0) = true) :=
            (u32_all_zero_iff 0).mpr (by simp)
          rw [hb] at hc
          cases hc
        simp [hne]
  simp only [convertUInt256ToFieldElementMasked, hz]
  by_cases h : w = 0
  · subst h
    simp
  · rw [convert_element_val m w hw]
    simp [h]

/-- Witness for C2 at a concrete instantiation: the additive group of the
scalar field, base point 1, the endomorphism acting as `GLV_LAMBDA`, and
scalar 5. -/
theorem width4_mul_round_trip_witness :
    width4WindowedMultiplication (fun Q : ZMod secpN => GLV_LAMBDA • Q)
        (1 : ZMod secpN) (5 : ZMod secpN) =
      ((5 : ZMod secpN)).val • (1 : ZMod secpN) := by
  have hn : secpN • (1 : ZMod secpN) = 0 := by
    rw [nsmul_eq_mul, mul_one, ZMod.natCast_self]
  exact (width4_windowed_multiplication_glv_round_trip (1 : ZMod secpN)
    (fun Q => GLV_LAMBDA • Q) hn (fun Q => rfl) 5).2

/-- Witness for C4 at a concrete instantiation over the integers. -/
theorem window_loop_step_witness :
    w4CondAdd ([] : List ℤ) (0 : ℤ) 0 = 0 ∧
    scanSelect ((buildTable (1 : ℤ)).map (fun Q => if false then -Q else Q)) 3 =
      3 • (if false then -(1 : ℤ) else 1) ∧
    scanSelect (((buildTable (1 : ℤ)).map
        (fun Q : ℤ => GLV_LAMBDA • Q)).map
        (fun Q => if false then -Q else Q)) 3 =
      3 • (if false then -(GLV_LAMBDA • (1 : ℤ)) else GLV_LAMBDA • (1 : ℤ)) ∧
    w4LoopStep ([] : List ℤ) [] 0 0 (0 : ℤ) 5 =
      2 • (2 • (2 • (2 • (w4CondAdd []
        (w4CondAdd ([] : List ℤ) 0 (window4 0 5)) (window4 0 5))))) ∧
    w4LoopStep ([] : List ℤ) [] 0 0 (0 : ℤ) 32 =
      w4CondAdd [] (w4CondAdd ([] : List ℤ) 0 (window4 0 32)) (window4 0 32) := by
  have h := window_loop_step_behavior (G := ℤ) 1 (fun Q => GLV_LAMBDA • Q)
    false [] [] 0 0 0 3 5
  exact ⟨h.1, h.2.1 (by norm_num) (by norm_num),
    h.2.2.1 (fun Q => rfl) (by norm_num) (by norm_num),
    h.2.2.2.1 (by norm_num), h.2.2.2.2⟩

/-- Witness for C7 (amended) at the concrete input word 3. -/
theorem convert_masked_witness :
    convertUInt256ToFieldElementMasked secpN 3 =
      (if (3 : ℕ) = 0 then 1 else ((3 : ℕ) : ZMod secpN),
        decide ((3 : ℕ) = 0)) :=
  convert_masked_zero_behavior secpN 3 (by norm_num)

/-! ## Primality of the secp256k1 base-field modulus

A Pratt-style certificate chain proved through Lucas primality: each
large prime in the tree is certified by a primitive root and the full
factorization of its predecessor. -/

theorem npowMod_eq (m a : ℕ) :
    ∀ fuel k, k < 2 ^ fuel → npowMod m a fuel k = a ^ k % m := by
  intro fuel
  induction fuel with
  | zero =>
      intro k hk
      interval_cases k
      simp [npowMod]
  | succ fuel ih =>
      intro k hk
      rcases Nat.eq_zero_or_pos k with h0 | hpos
      · subst h0
        simp [npowMod]
      · have hk2 : k / 2 < 2 ^ fuel := by
          have h2 : (2 : ℕ) ^ (fuel + 1) = 2 * 2 ^ fuel := by ring
          omega
        rw [npowMod, if_neg (by omega)]
        simp only [ih (k / 2) hk2]
        rcases Nat.even_or_odd k with he | ho
        · have hmod : k % 2 = 0 := Nat.even_iff.mp he
          rw [if_pos hmod, ← Nat.mul_mod, ← pow_add,
            show k / 2 + k / 2 = k from by omega]
        · have hmod : k % 2 = 1 := Nat.odd_iff.mp ho
          rw [if_neg (by omega), Nat.mod_mul_mod]
          have hcong : a ^ (k / 2) % m * (a ^ (k / 2) % m) * a % m =
              a ^ (k / 2) * a ^ (k / 2) * a % m :=
            ((Nat.mod_modEq (a ^ (k / 2)) m).mul
              (Nat.mod_modEq (a ^ (k / 2)) m)).mul_right a
          rw [hcong, ← pow_add, ← pow_succ,
            show k / 2 + k / 2 + 1 = k from by omega]

theorem zmod_pow_eq_one_iff (m a k : ℕ) (_hm : 1 < m) :
    (((a : ℕ) : ZMod m) ^ k = 1) ↔ a ^ k % m = 1 % m := by
  have h := ZMod.natCast_eq_natCast_iff (a ^ k) 1 m
  rw [Nat.cast_pow, Nat.cast_one] at h
  exact h

set_option maxRecDepth 100000 in
theorem cert13331831 : Nat.Prime 13331831 := by
  have e1 : (13331831 : ℕ) - 1 = 13331830 := by norm_num
  apply lucas_primality _ ((13 : ℕ) : ZMod 13331831)
  · rw [e1, zmod_pow_eq_one_iff 13331831 13 13331830 (by norm_num),
      ← npowMod_eq 13331831 13 25 13331830 (by norm_num)]
    decide
  · intro q hq hdvd
    rw [e1] at hdvd ⊢
    have hsplit : (13331830 : ℕ) = 2 * (5 * (971 * (1373))) := by norm_num
    rw [hsplit] at hdvd
    rcases (Nat.Prime.dvd_mul hq).mp hdvd with h | hdvd
    · have hqe : q = 2 := (Nat.prime_dvd_prime_iff_eq hq (by norm_num)).mp h
      subst hqe
      intro hcontra
      rw [show (13331830 : ℕ) / 2 = 6665915 from by norm_num,
        zmod_pow_eq_one_iff 13331831 13 6665915 (by norm_num),
        ← npowMod_eq 13331831 13 25 6665915 (by norm_num)] at hcontra
      exact absurd hcontra (by decide)
    rcases (Nat.Prime.dvd_mul hq).mp hdvd with h | hdvd
    · have hqe : q = 5 := (Nat.prime_dvd_prime_iff_eq hq (by norm_num)).mp h
      subst hqe
      intro hcontra
      rw [show (13331830 : ℕ) / 5 = 2666366 from by norm_num,
        zmod_pow_eq_one_iff 13331831 13 2666366 (by norm_num),
        ← npowMod_eq 13331831 13 25 2666366 (by norm_num)] at hcontra
      exact absurd hcontra (by decide)
    rcases (Nat.Prime.dvd_mul hq).mp hdvd with h | hdvd
    · have hqe : q = 971 := (Nat.prime_dvd_prime_iff_eq hq (by norm_num)).mp h
      subst hqe
      intro hcontra
      rw [show (13331830 : ℕ) / 971 = 13730 from by norm_num,
        zmod_pow_eq_one_iff 13331831 13 13730 (by norm_num),
        ← npowMod_eq 13331831 13 25 13730 (by norm_num)] at hcontra
      exact absurd hcontra (by decide)
    have hqe : q = 1373 := (Nat.prime_dvd_prime_iff_eq hq (by norm_num)).mp hdvd
    subst hqe
    intro hcontra
    rw [show (13331830 : ℕ) / 1373 = 9710 from by norm_num,
      zmod_pow_eq_one_iff 13331831 13 9710 (by norm_num),
      ← npowMod_eq 13331831 13 25 9710 (by norm_num)] at hcontra
    exact absurd hcontra (by decide)

set_option maxRecDepth 100000 in
theorem cert107590001 : Nat.Prime 107590001 := by
  have e1 : (107590001 : ℕ) - 1 = 107590000 := by norm_num
  apply lucas_primality _ ((3 : ℕ) : ZMod 107590001)
  · rw [e1, zmod_pow_eq_one_iff 107590001 3 107590000 (by norm_num),
      ← npowMod_eq 107590001 3 28 107590000 (by norm_num)]
    decide
  · intro q hq hdvd
    rw [e1] at hdvd ⊢
    have hsplit : (107590000 : ℕ) = 2 ^ 4 * (5 ^ 4 * (7 * (29 * (53)))) := by norm_num
    rw [hsplit] at hdvd
    rcases (Nat.Prime.dvd_mul hq).mp hdvd with h | hdvd
    · have hqe : q = 2 := (Nat.prime_dvd_prime_iff_eq hq (by norm_num)).mp (hq.dvd_of_dvd_pow h)
      subst hqe
      intro hcontra
      rw [show (107590000 : ℕ) / 2 = 53795000 from by norm_num,
        zmod_pow_eq_one_iff 107590001 3 53795000 (by norm_num),
        ← npowMod_eq 107590001 3 28 53795000 (by norm_num)] at hcontra
      exact absurd hcontra (by decide)
    rcases (Nat.Prime.dvd_mul hq).mp hdvd with h | hdvd
    · have hqe : q = 5 := (Nat.prime_dvd_prime_iff_eq hq (by norm_num)).mp (hq.dvd_of_dvd_pow h)
      subst hqe
      intro hcontra
      rw [show (107590000 : ℕ) / 5 = 21518000 from by norm_num,
        zmod_pow_eq_one_iff 107590001 3 21518000 (by norm_num),
        ← npowMod_eq 107590001 3 28 21518000 (by norm_num)] at hcontra
      exact absurd hcontra (by decide)
    rcases (Nat.Prime.dvd_mul hq).mp hdvd with h | hdvd
    · have hqe : q = 7 := (Nat.prime_dvd_prime_iff_eq hq (by norm_num)).mp h
      subst hqe
      intro hcontra
      rw [show (107590000 : ℕ) / 7 = 15370000 from by norm_num,
        zmod_pow_eq_one_iff 107590001 3 15370000 (by norm_num),
        ← npowMod_eq 107590001 3 28 15370000 (by norm_num)] at hcontra
      exact absurd hcontra (by decide)
    rcases (Nat.Prime.dvd_mul hq).mp hdvd with h | hdvd
    · have hqe : q = 29 := (Nat.prime_dvd_prime_iff_eq hq (by norm_num)).mp h
      subst hqe
      intro hcontra
      rw [show (107590000 : ℕ) / 29 = 3710000 from by norm_num,
        zmod_pow_eq_one_iff 107590001 3 3710000 (by norm_num),
        ← npowMod_eq 107590001 3 28 3710000 (by norm_num)] at hcontra
      exact absurd hcontra (by decide)
    have hqe : q = 53 := (Nat.prime_dvd_prime_iff_eq hq (by norm_num)).mp hdvd
    subst hqe
    intro hcontra
    rw [show (107590000 : ℕ) / 53 = 2030000 from by norm_num,
      zmod_pow_eq_one_iff 107590001 3 2030000 (by norm_num),
      ← npowMod_eq 107590001 3 28 2030000 (by norm_num)] at hcontra
    exact absurd hcontra (by decide)

set_option maxRecDepth 100000 in
theorem cert1206781 : Nat.Prime 1206781 := by
  have e1 : (1206781 : ℕ) - 1 = 1206780 := by norm_num
  apply lucas_primality _ ((10 : ℕ) : ZMod 1206781)
  · rw [e1, zmod_pow_eq_one_iff 1206781 10 1206780 (by norm_num),
      ← npowMod_eq 1206781 10 22 1206780 (by norm_num)]
    decide
  · intro q hq hdvd
    rw [e1] at hdvd ⊢
    have hsplit : (1206780 : ℕ) = 2 ^ 2 * (3 * (5 * (20113))) := by norm_num
    rw [hsplit] at hdvd
    rcases (Nat.Prime.dvd_mul hq).mp hdvd with h | hdvd
    · have hqe : q = 2 := (Nat.prime_dvd_prime_iff_eq hq (by norm_num)).mp (hq.dvd_of_dvd_pow h)
      subst hqe
      intro hcontra
      rw [show (1206780 : ℕ) / 2 = 603390 from by norm_num,
        zmod_pow_eq_one_iff 1206781 10 603390 (by norm_num),
        ← npowMod_eq 1206781 10 22 603390 (by norm_num)] at hcontra
      exact absurd hcontra (by decide)
    rcases (Nat.Prime.dvd_mul hq).mp hdvd with h | hdvd
    · have hqe : q = 3 := (Nat.prime_dvd_prime_iff_eq hq (by norm_num)).mp h
      subst hqe
      intro hcontra
      rw [show (1206780 : ℕ) / 3 = 402260 from by norm_num,
        zmod_pow_eq_one_iff 1206781 10 402260 (by norm_num),
        ← npowMod_eq 1206781 10 22 402260 (by norm_num)] at hcontra
      exact absurd hcontra (by decide)
    rcases (Nat.Prime.dvd_mul hq).mp hdvd with h | hdvd
    · have hqe : q = 5 := (Nat.prime_dvd_prime_iff_eq hq (by norm_num)).mp h
      subst hqe
      intro hcontra
      rw [show (1206780 : ℕ) / 5 = 241356 from by norm_num,
        zmod_pow_eq_one_iff 1206781 10 241356 (by norm_num),
        ← npowMod_eq 1206781 10 22 241356 (by norm_num)] at hcontra
      exact absurd hcontra (by decide)
    have hqe : q = 20113 := (Nat.prime_dvd_prime_iff_eq hq (by norm_num)).mp hdvd
    subst hqe
    intro hcontra
    rw [show (1206780 : ℕ) / 20113 = 60 from by norm_num,
      zmod_pow_eq_one_iff 1206781 10 60 (by norm_num),
      ← npowMod_eq 1206781 10 22 60 (by norm_num)] at hcontra
    exact absurd hcontra (by decide)

set_option maxRecDepth 100000 in
theorem cert7240687 : Nat.Prime 7240687 := by
  have e1 : (7240687 : ℕ) - 1 = 7240686 := by norm_num
  apply lucas_primality _ ((3 : ℕ) : ZMod 7240687)
  · rw [e1, zmod_pow_eq_one_iff 7240687 3 7240686 (by norm_num),
      ← npowMod_eq 7240687 3 24 7240686 (by norm_num)]
    decide
  · intro q hq hdvd
    rw [e1] at hdvd ⊢
    have hsplit : (7240686 : ℕ) = 2 * (3 * (1206781)) := by norm_num
    rw [hsplit] at hdvd
    rcases (Nat.Prime.dvd_mul hq).mp hdvd with h | hdvd
    · have hqe : q = 2 := (Nat.prime_dvd_prime_iff_eq hq (by norm_num)).mp h
      subst hqe
      intro hcontra
      rw [show (7240686 : ℕ) / 2 = 3620343 from by norm_num,
        zmod_pow_eq_one_iff 7240687 3 3620343 (by norm_num),
        ← npowMod_eq 7240687 3 24 3620343 (by norm_num)] at hcontra
      exact absurd hcontra (by decide)
    rcases (Nat.Prime.dvd_mul hq).mp hdvd with h | hdvd
    · have hqe : q = 3 := (Nat.prime_dvd_prime_iff_eq hq (by norm_num)).mp h
      subst hqe
      intro hcontra
      rw [show (7240686 : ℕ) / 3 = 2413562 from by norm_num,
        zmod_pow_eq_one_iff 7240687 3 2413562 (by norm_num),
        ← npowMod_eq 7240687 3 24 2413562 (by norm_num)] at hcontra
      exact absurd hcontra (by decide)
    have hqe : q = 1206781 := (Nat.prime_dvd_prime_iff_eq hq (cert1206781)).mp hdvd
    subst hqe
    intro hcontra
    rw [show (7240686 : ℕ) / 1206781 = 6 from by norm_num,
      zmod_pow_eq_one_iff 7240687 3 6 (by norm_num),
      ← npowMod_eq 7240687 3 24 6 (by norm_num)] at hcontra
    exact absurd hcontra (by decide)

set_option maxRecDepth 100000 in
theorem certH : Nat.Prime 173378833005251801 := by
  have e1 : (173378833005251801 : ℕ) - 1 = 173378833005251800 := by norm_num
  apply lucas_primality _ ((6 : ℕ) : ZMod 173378833005251801)
  · rw [e1, zmod_pow_eq_one_iff 173378833005251801 6 173378833005251800 (by norm_num),
      ← npowMod_eq 173378833005251801 6 59 173378833005251800 (by norm_num)]
    decide
  · intro q hq hdvd
    rw [e1] at hdvd ⊢
    have hsplit : (173378833005251800 : ℕ) = 2 ^ 3 * (5 ^ 2 * (2621 * (24809 * (13331831)))) := by norm_num
    rw [hsplit] at hdvd
    rcases (Nat.Prime.dvd_mul hq).mp hdvd with h | hdvd
    · have hqe : q = 2 := (Nat.prime_dvd_prime_iff_eq hq (by norm_num)).mp (hq.dvd_of_dvd_pow h)
      subst hqe
      intro hcontra
      rw [show (173378833005251800 : ℕ) / 2 = 86689416502625900 from by norm_num,
        zmod_pow_eq_one_iff 173378833005251801 6 86689416502625900 (by norm_num),
        ← npowMod_eq 173378833005251801 6 59 86689416502625900 (by norm_num)] at hcontra
      exact absurd hcontra (by decide)
    rcases (Nat.Prime.dvd_mul hq).mp hdvd with h | hdvd
    · have hqe : q = 5 := (Nat.prime_dvd_prime_iff_eq hq (by norm_num)).mp (hq.dvd_of_dvd_pow h)
      subst hqe
      intro hcontra
      rw [show (173378833005251800 : ℕ) / 5 = 34675766601050360 from by norm_num,
        zmod_pow_eq_one_iff 173378833005251801 6 34675766601050360 (by norm_num),
        ← npowMod_eq 173378833005251801 6 59 34675766601050360 (by norm_num)] at hcontra
      exact absurd hcontra (by decide)
    rcases (Nat.Prime.dvd_mul hq).mp hdvd with h | hdvd
    · have hqe : q = 2621 := (Nat.prime_dvd_prime_iff_eq hq (by norm_num)).mp h
      subst hqe
      intro hcontra
      rw [show (173378833005251800 : ℕ) / 2621 = 66149879055800 from by norm_num,
        zmod_pow_eq_one_iff 173378833005251801 6 66149879055800 (by norm_num),
        ← npowMod_eq 173378833005251801 6 59 66149879055800 (by norm_num)] at hcontra
      exact absurd hcontra (by decide)
    rcases (Nat.Prime.dvd_mul hq).mp hdvd with h | hdvd
    · have hqe : q = 24809 := (Nat.prime_dvd_prime_iff_eq hq (by norm_num)).mp h
      subst hqe
      intro hcontra
      rw [show (173378833005251800 : ℕ) / 24809 = 6988545810200 from by norm_num,
        zmod_pow_eq_one_iff 173378833005251801 6 6988545810200 (by norm_num),
        ← npowMod_eq 173378833005251801 6 59 6988545810200 (by norm_num)] at hcontra
      exact absurd hcontra (by decide)
    have hqe : q = 13331831 := (Nat.prime_dvd_prime_iff_eq hq (cert13331831)).mp hdvd
    subst hqe
    intro hcontra
    rw [show (173378833005251800 : ℕ) / 13331831 = 13004877800 from by norm_num,
      zmod_pow_eq_one_iff 173378833005251801 6 13004877800 (by norm_num),
      ← npowMod_eq 173378833005251801 6 59 13004877800 (by norm_num)] at hcontra
    exact absurd hcontra (by decide)

set_option maxRecDepth 100000 in
theorem certG : Nat.Prime 22149492674086928081353 := by
  have e1 : (22149492674086928081353 : ℕ) - 1 = 22149492674086928081352 := by norm_num
  apply lucas_primality _ ((5 : ℕ) : ZMod 22149492674086928081353)
  · rw [e1, zmod_pow_eq_one_iff 22149492674086928081353 5 22149492674086928081352 (by norm_num),
      ← npowMod_eq 22149492674086928081353 5 76 22149492674086928081352 (by norm_num)]
    decide
  · intro q hq hdvd
    rw [e1] at hdvd ⊢
    have hsplit : (22149492674086928081352 : ℕ) = 2 ^ 3 * (3 * (5323 * (173378833005251801))) := by norm_num
    rw [hsplit] at hdvd
    rcases (Nat.Prime.dvd_mul hq).mp hdvd with h | hdvd
    · have hqe : q = 2 := (Nat.prime_dvd_prime_iff_eq hq (by norm_num)).mp (hq.dvd_of_dvd_pow h)
      subst hqe
      intro hcontra
      rw [show (22149492674086928081352 : ℕ) / 2 = 11074746337043464040676 from by norm_num,
        zmod_pow_eq_one_iff 22149492674086928081353 5 11074746337043464040676 (by norm_num),
        ← npowMod_eq 22149492674086928081353 5 76 11074746337043464040676 (by norm_num)] at hcontra
      exact absurd hcontra (by decide)
    rcases (Nat.Prime.dvd_mul hq).mp hdvd with h | hdvd
    · have hqe : q = 3 := (Nat.prime_dvd_prime_iff_eq hq (by norm_num)).mp h
      subst hqe
      intro hcontra
      rw [show (22149492674086928081352 : ℕ) / 3 = 7383164224695642693784 from by norm_num,
        zmod_pow_eq_one_iff 22149492674086928081353 5 7383164224695642693784 (by norm_num),
        ← npowMod_eq 22149492674086928081353 5 76 7383164224695642693784 (by norm_num)] at hcontra
      exact absurd hcontra (by decide)
    rcases (Nat.Prime.dvd_mul hq).mp hdvd with h | hdvd
    · have hqe : q = 5323 := (Nat.prime_dvd_prime_iff_eq hq (by norm_num)).mp h
      subst hqe
      intro hcontra
      rw [show (22149492674086928081352 : ℕ) / 5323 = 4161091992126043224 from by norm_num,
        zmod_pow_eq_one_iff 22149492674086928081353 5 4161091992126043224 (by norm_num),
        ← npowMod_eq 22149492674086928081353 5 76 4161091992126043224 (by norm_num)] at hcontra
      exact absurd hcontra (by decide)
    have hqe : q = 173378833005251801 := (Nat.prime_dvd_prime_iff_eq hq (certH)).mp hdvd
    subst hqe
    intro hcontra
    rw [show (22149492674086928081352 : ℕ) / 173378833005251801 = 127752 from by norm_num,
      zmod_pow_eq_one_iff 22149492674086928081353 5 127752 (by norm_num),
      ← npowMod_eq 22149492674086928081353 5 76 127752 (by norm_num)] at hcontra
    exact absurd hcontra (by decide)

set_option maxRecDepth 100000 in
theorem certF1 : Nat.Prime 132896956044521568488119 := by
  have e1 : (132896956044521568488119 : ℕ) - 1 = 132896956044521568488118 := by norm_num
  apply lucas_primality _ ((6 : ℕ) : ZMod 132896956044521568488119)
  · rw [e1, zmod_pow_eq_one_iff 132896956044521568488119 6 132896956044521568488118 (by norm_num),
      ← npowMod_eq 132896956044521568488119 6 78 132896956044521568488118 (by norm_num)]
    decide
  · intro q hq hdvd
    rw [e1] at hdvd ⊢
    have hsplit : (132896956044521568488118 : ℕ) = 2 * (3 * (22149492674086928081353)) := by norm_num
    rw [hsplit] at hdvd
    rcases (Nat.Prime.dvd_mul hq).mp hdvd with h | hdvd
    · have hqe : q = 2 := (Nat.prime_dvd_prime_iff_eq hq (by norm_num)).mp h
      subst hqe
      intro hcontra
      rw [show (132896956044521568488118 : ℕ) / 2 = 66448478022260784244059 from by norm_num,
        zmod_pow_eq_one_iff 132896956044521568488119 6 66448478022260784244059 (by norm_num),
        ← npowMod_eq 132896956044521568488119 6 78 66448478022260784244059 (by norm_num)] at hcontra
      exact absurd hcontra (by decide)
    rcases (Nat.Prime.dvd_mul hq).mp hdvd with h | hdvd
    · have hqe : q = 3 := (Nat.prime_dvd_prime_iff_eq hq (by norm_num)).mp h
      subst hqe
      intro hcontra
      rw [show (132896956044521568488118 : ℕ) / 3 = 44298985348173856162706 from by norm_num,
        zmod_pow_eq_one_iff 132896956044521568488119 6 44298985348173856162706 (by norm_num),
        ← npowMod_eq 132896956044521568488119 6 78 44298985348173856162706 (by norm_num)] at hcontra
      exact absurd hcontra (by decide)
    have hqe : q = 22149492674086928081353 := (Nat.prime_dvd_prime_iff_eq hq (certG)).mp hdvd
    subst hqe
    intro hcontra
    rw [show (132896956044521568488118 : ℕ) / 22149492674086928081353 = 6 from by norm_num,
      zmod_pow_eq_one_iff 132896956044521568488119 6 6 (by norm_num),
      ← npowMod_eq 132896956044521568488119 6 78 6 (by norm_num)] at hcontra
    exact absurd hcontra (by decide)

set_option maxRecDepth 100000 in
theorem certF2 : Nat.Prime 255515944373312847190720520512484175977 := by
  have e1 : (255515944373312847190720520512484175977 : ℕ) - 1 = 255515944373312847190720520512484175976 := by norm_num
  apply lucas_primality _ ((3 : ℕ) : ZMod 255515944373312847190720520512484175977)
  · rw [e1, zmod_pow_eq_one_iff 255515944373312847190720520512484175977 3 255515944373312847190720520512484175976 (by norm_num),
      ← npowMod_eq 255515944373312847190720520512484175977 3 129 255515944373312847190720520512484175976 (by norm_num)]
    decide
  · intro q hq hdvd
    rw [e1] at hdvd ⊢
    have hsplit : (255515944373312847190720520512484175976 : ℕ) = 2 ^ 3 * (7 ^ 2 * (11 * (1627 * (2657 * (4423 * (41201 * (96557 * (7240687 * (107590001))))))))) := by norm_num
    rw [hsplit] at hdvd
    rcases (Nat.Prime.dvd_mul hq).mp hdvd with h | hdvd
    · have hqe : q = 2 := (Nat.prime_dvd_prime_iff_eq hq (by norm_num)).mp (hq.dvd_of_dvd_pow h)
      subst hqe
      intro hcontra
      rw [show (255515944373312847190720520512484175976 : ℕ) / 2 = 127757972186656423595360260256242087988 from by norm_num,
        zmod_pow_eq_one_iff 255515944373312847190720520512484175977 3 127757972186656423595360260256242087988 (by norm_num),
        ← npowMod_eq 255515944373312847190720520512484175977 3 129 127757972186656423595360260256242087988 (by norm_num)] at hcontra
      exact absurd hcontra (by decide)
    rcases (Nat.Prime.dvd_mul hq).mp hdvd with h | hdvd
    · have hqe : q = 7 := (Nat.prime_dvd_prime_iff_eq hq (by norm_num)).mp (hq.dvd_of_dvd_pow h)
      subst hqe
      intro hcontra
      rw [show (255515944373312847190720520512484175976 : ℕ) / 7 = 36502277767616121027245788644640596568 from by norm_num,
        zmod_pow_eq_one_iff 255515944373312847190720520512484175977 3 36502277767616121027245788644640596568 (by norm_num),
        ← npowMod_eq 255515944373312847190720520512484175977 3 129 36502277767616121027245788644640596568 (by norm_num)] at hcontra
      exact absurd hcontra (by decide)
    rcases (Nat.Prime.dvd_mul hq).mp hdvd with h | hdvd
    · have hqe : q = 11 := (Nat.prime_dvd_prime_iff_eq hq (by norm_num)).mp h
      subst hqe
      intro hcontra
      rw [show (255515944373312847190720520512484175976 : ℕ) / 11 = 23228722215755713380974592773862197816 from by norm_num,
        zmod_pow_eq_one_iff 255515944373312847190720520512484175977 3 23228722215755713380974592773862197816 (by norm_num),
        ← npowMod_eq 255515944373312847190720520512484175977 3 129 23228722215755713380974592773862197816 (by norm_num)] at hcontra
      exact absurd hcontra (by decide)
    rcases (Nat.Prime.dvd_mul hq).mp hdvd with h | hdvd
    · have hqe : q = 1627 := (Nat.prime_dvd_prime_iff_eq hq (by norm_num)).mp h
      subst hqe
      intro hcontra
      rw [show (255515944373312847190720520512484175976 : ℕ) / 1627 = 157047292177819820031174259688066488 from by norm_num,
        zmod_pow_eq_one_iff 255515944373312847190720520512484175977 3 157047292177819820031174259688066488 (by norm_num),
        ← npowMod_eq 255515944373312847190720520512484175977 3 129 157047292177819820031174259688066488 (by norm_num)] at hcontra
      exact absurd hcontra (by decide)
    rcases (Nat.Prime.dvd_mul hq).mp hdvd with h | hdvd
    · have hqe : q = 2657 := (Nat.prime_dvd_prime_iff_eq hq (by norm_num)).mp h
      subst hqe
      intro hcontra
      rw [show (255515944373312847190720520512484175976 : ℕ) / 2657 = 96167084822473785167753300907972968 from by norm_num,
        zmod_pow_eq_one_iff 255515944373312847190720520512484175977 3 96167084822473785167753300907972968 (by norm_num),
        ← npowMod_eq 255515944373312847190720520512484175977 3 129 96167084822473785167753300907972968 (by norm_num)] at hcontra
      exact absurd hcontra (by decide)
    rcases (Nat.Prime.dvd_mul hq).mp hdvd with h | hdvd
    · have hqe : q = 4423 := (Nat.prime_dvd_prime_iff_eq hq (by norm_num)).mp h
      subst hqe
      intro hcontra
      rw [show (255515944373312847190720520512484175976 : ℕ) / 4423 = 57769826898782013834664372713652312 from by norm_num,
        zmod_pow_eq_one_iff 255515944373312847190720520512484175977 3 57769826898782013834664372713652312 (by norm_num),
        ← npowMod_eq 255515944373312847190720520512484175977 3 129 57769826898782013834664372713652312 (by norm_num)] at hcontra
      exact absurd hcontra (by decide)
    rcases (Nat.Prime.dvd_mul hq).mp hdvd with h | hdvd
    · have hqe : q = 41201 := (Nat.prime_dvd_prime_iff_eq hq (by norm_num)).mp h
      subst hqe
      intro hcontra
      rw [show (255515944373312847190720520512484175976 : ℕ) / 41201 = 6201692783507993669831327407404776 from by norm_num,
        zmod_pow_eq_one_iff 255515944373312847190720520512484175977 3 6201692783507993669831327407404776 (by norm_num),
        ← npowMod_eq 255515944373312847190720520512484175977 3 129 6201692783507993669831327407404776 (by norm_num)] at hcontra
      exact absurd hcontra (by decide)
    rcases (Nat.Prime.dvd_mul hq).mp hdvd with h | hdvd
    · have hqe : q = 96557 := (Nat.prime_dvd_prime_iff_eq hq (by norm_num)).mp h
      subst hqe
      intro hcontra
      rw [show (255515944373312847190720520512484175976 : ℕ) / 96557 = 2646270538369179315748423423599368 from by norm_num,
        zmod_pow_eq_one_iff 255515944373312847190720520512484175977 3 2646270538369179315748423423599368 (by norm_num),
        ← npowMod_eq 255515944373312847190720520512484175977 3 129 2646270538369179315748423423599368 (by norm_num)] at hcontra
      exact absurd hcontra (by decide)
    rcases (Nat.Prime.dvd_mul hq).mp hdvd with h | hdvd
    · have hqe : q = 7240687 := (Nat.prime_dvd_prime_iff_eq hq (cert7240687)).mp h
      subst hqe
      intro hcontra
      rw [show (255515944373312847190720520512484175976 : ℕ) / 7240687 = 35288908963101546467996824129048 from by norm_num,
        zmod_pow_eq_one_iff 255515944373312847190720520512484175977 3 35288908963101546467996824129048 (by norm_num),
        ← npowMod_eq 255515944373312847190720520512484175977 3 129 35288908963101546467996824129048 (by norm_num)] at hcontra
      exact absurd hcontra (by decide)
    have hqe : q = 107590001 := (Nat.prime_dvd_prime_iff_eq hq (cert107590001)).mp hdvd
    subst hqe
    intro hcontra
    rw [show (255515944373312847190720520512484175976 : ℕ) / 107590001 = 2374904191824599455024826335976 from by norm_num,
      zmod_pow_eq_one_iff 255515944373312847190720520512484175977 3 2374904191824599455024826335976 (by norm_num),
      ← npowMod_eq 255515944373312847190720520512484175977 3 129 2374904191824599455024826335976 (by norm_num)] at hcontra
    exact absurd hcontra (by decide)

set_option maxRecDepth 100000 in
theorem certC : Nat.Prime 205115282021455665897114700593932402728804164701536103180137503955397371 := by
  have e1 : (205115282021455665897114700593932402728804164701536103180137503955397371 : ℕ) - 1 = 205115282021455665897114700593932402728804164701536103180137503955397370 := by norm_num
  apply lucas_primality _ ((10 : ℕ) : ZMod 205115282021455665897114700593932402728804164701536103180137503955397371)
  · rw [e1, zmod_pow_eq_one_iff 205115282021455665897114700593932402728804164701536103180137503955397371 10 205115282021455665897114700593932402728804164701536103180137503955397370 (by norm_num),
      ← npowMod_eq 205115282021455665897114700593932402728804164701536103180137503955397371 10 238 205115282021455665897114700593932402728804164701536103180137503955397370 (by norm_num)]
    decide
  · intro q hq hdvd
    rw [e1] at hdvd ⊢
    have hsplit : (205115282021455665897114700593932402728804164701536103180137503955397370 : ℕ) = 2 * (3 * (5 * (29 ^ 2 * (31 * (7723 * (132896956044521568488119 * (255515944373312847190720520512484175977))))))) := by norm_num
    rw [hsplit] at hdvd
    rcases (Nat.Prime.dvd_mul hq).mp hdvd with h | hdvd
    · have hqe : q = 2 := (Nat.prime_dvd_prime_iff_eq hq (by norm_num)).mp h
      subst hqe
      intro hcontra
      rw [show (205115282021455665897114700593932402728804164701536103180137503955397370 : ℕ) / 2 = 102557641010727832948557350296966201364402082350768051590068751977698685 from by norm_num,
        zmod_pow_eq_one_iff 205115282021455665897114700593932402728804164701536103180137503955397371 10 102557641010727832948557350296966201364402082350768051590068751977698685 (by norm_num),
        ← npowMod_eq 205115282021455665897114700593932402728804164701536103180137503955397371 10 238 102557641010727832948557350296966201364402082350768051590068751977698685 (by norm_num)] at hcontra
      exact absurd hcontra (by decide)
    rcases (Nat.Prime.dvd_mul hq).mp hdvd with h | hdvd
    · have hqe : q = 3 := (Nat.prime_dvd_prime_iff_eq hq (by norm_num)).mp h
      subst hqe
      intro hcontra
      rw [show (205115282021455665897114700593932402728804164701536103180137503955397370 : ℕ) / 3 = 68371760673818555299038233531310800909601388233845367726712501318465790 from by norm_num,
        zmod_pow_eq_one_iff 205115282021455665897114700593932402728804164701536103180137503955397371 10 68371760673818555299038233531310800909601388233845367726712501318465790 (by norm_num),
        ← npowMod_eq 205115282021455665897114700593932402728804164701536103180137503955397371 10 238 68371760673818555299038233531310800909601388233845367726712501318465790 (by norm_num)] at hcontra
      exact absurd hcontra (by decide)
    rcases (Nat.Prime.dvd_mul hq).mp hdvd with h | hdvd
    · have hqe : q = 5 := (Nat.prime_dvd_prime_iff_eq hq (by norm_num)).mp h
      subst hqe
      intro hcontra
      rw [show (205115282021455665897114700593932402728804164701536103180137503955397370 : ℕ) / 5 = 41023056404291133179422940118786480545760832940307220636027500791079474 from by norm_num,
        zmod_pow_eq_one_iff 205115282021455665897114700593932402728804164701536103180137503955397371 10 41023056404291133179422940118786480545760832940307220636027500791079474 (by norm_num),
        ← npowMod_eq 205115282021455665897114700593932402728804164701536103180137503955397371 10 238 41023056404291133179422940118786480545760832940307220636027500791079474 (by norm_num)] at hcontra
      exact absurd hcontra (by decide)
    rcases (Nat.Prime.dvd_mul hq).mp hdvd with h | hdvd
    · have hqe : q = 29 := (Nat.prime_dvd_prime_iff_eq hq (by norm_num)).mp (hq.dvd_of_dvd_pow h)
      subst hqe
      intro hcontra
      rw [show (205115282021455665897114700593932402728804164701536103180137503955397370 : ℕ) / 29 = 7072940759360540203348782779101117335476005679363313902763362205358530 from by norm_num,
        zmod_pow_eq_one_iff 205115282021455665897114700593932402728804164701536103180137503955397371 10 7072940759360540203348782779101117335476005679363313902763362205358530 (by norm_num),
        ← npowMod_eq 205115282021455665897114700593932402728804164701536103180137503955397371 10 238 7072940759360540203348782779101117335476005679363313902763362205358530 (by norm_num)] at hcontra
      exact absurd hcontra (by decide)
    rcases (Nat.Prime.dvd_mul hq).mp hdvd with h | hdvd
    · have hqe : q = 31 := (Nat.prime_dvd_prime_iff_eq hq (by norm_num)).mp h
      subst hqe
      intro hcontra
      rw [show (205115282021455665897114700593932402728804164701536103180137503955397370 : ℕ) / 31 = 6616622000692118254745635503030077507380779506501164618714113030819270 from by norm_num,
        zmod_pow_eq_one_iff 205115282021455665897114700593932402728804164701536103180137503955397371 10 6616622000692118254745635503030077507380779506501164618714113030819270 (by norm_num),
        ← npowMod_eq 205115282021455665897114700593932402728804164701536103180137503955397371 10 238 6616622000692118254745635503030077507380779506501164618714113030819270 (by norm_num)] at hcontra
      exact absurd hcontra (by decide)
    rcases (Nat.Prime.dvd_mul hq).mp hdvd with h | hdvd
    · have hqe : q = 7723 := (Nat.prime_dvd_prime_iff_eq hq (by norm_num)).mp h
      subst hqe
      intro hcontra
      rw [show (205115282021455665897114700593932402728804164701536103180137503955397370 : ℕ) / 7723 = 26559016188198325248881872406310035313842310591937861346644762910190 from by norm_num,
        zmod_pow_eq_one_iff 205115282021455665897114700593932402728804164701536103180137503955397371 10 26559016188198325248881872406310035313842310591937861346644762910190 (by norm_num),
        ← npowMod_eq 205115282021455665897114700593932402728804164701536103180137503955397371 10 238 26559016188198325248881872406310035313842310591937861346644762910190 (by norm_num)] at hcontra
      exact absurd hcontra (by decide)
    rcases (Nat.Prime.dvd_mul hq).mp hdvd with h | hdvd
    · have hqe : q = 132896956044521568488119 := (Nat.prime_dvd_prime_iff_eq hq (certF1)).mp h
      subst hqe
      intro hcontra
      rw [show (205115282021455665897114700593932402728804164701536103180137503955397370 : ℕ) / 132896956044521568488119 = 1543415952677955745309227852991199086604869270230 from by norm_num,
        zmod_pow_eq_one_iff 205115282021455665897114700593932402728804164701536103180137503955397371 10 1543415952677955745309227852991199086604869270230 (by norm_num),
        ← npowMod_eq 205115282021455665897114700593932402728804164701536103180137503955397371 10 238 1543415952677955745309227852991199086604869270230 (by norm_num)] at hcontra
      exact absurd hcontra (by decide)
    have hqe : q = 255515944373312847190720520512484175977 := (Nat.prime_dvd_prime_iff_eq hq (certF2)).mp hdvd
    subst hqe
    intro hcontra
    rw [show (205115282021455665897114700593932402728804164701536103180137503955397370 : ℕ) / 255515944373312847190720520512484175977 = 802749442992798076634733441528810 from by norm_num,
      zmod_pow_eq_one_iff 205115282021455665897114700593932402728804164701536103180137503955397371 10 802749442992798076634733441528810 (by norm_num),
      ← npowMod_eq 205115282021455665897114700593932402728804164701536103180137503955397371 10 238 802749442992798076634733441528810 (by norm_num)] at hcontra
    exact absurd hcontra (by decide)

set_option maxRecDepth 100000 in
theorem certP : Nat.Prime 115792089237316195423570985008687907853269984665640564039457584007908834671663 := by
  have e1 : (115792089237316195423570985008687907853269984665640564039457584007908834671663 : ℕ) - 1 = 115792089237316195423570985008687907853269984665640564039457584007908834671662 := by norm_num
  apply lucas_primality _ ((3 : ℕ) : ZMod 115792089237316195423570985008687907853269984665640564039457584007908834671663)
  · rw [e1, zmod_pow_eq_one_iff 115792089237316195423570985008687907853269984665640564039457584007908834671663 3 115792089237316195423570985008687907853269984665640564039457584007908834671662 (by norm_num),
      ← npowMod_eq 115792089237316195423570985008687907853269984665640564039457584007908834671663 3 257 115792089237316195423570985008687907853269984665640564039457584007908834671662 (by norm_num)]
    decide
  · intro q hq hdvd
    rw [e1] at hdvd ⊢
    have hsplit : (115792089237316195423570985008687907853269984665640564039457584007908834671662 : ℕ) = 2 * (3 * (7 * (13441 * (205115282021455665897114700593932402728804164701536103180137503955397371)))) := by norm_num
    rw [hsplit] at hdvd
    rcases (Nat.Prime.dvd_mul hq).mp hdvd with h | hdvd
    · have hqe : q = 2 := (Nat.prime_dvd_prime_iff_eq hq (by norm_num)).mp h
      subst hqe
      intro hcontra
      rw [show (115792089237316195423570985008687907853269984665640564039457584007908834671662 : ℕ) / 2 = 57896044618658097711785492504343953926634992332820282019728792003954417335831 from by norm_num,
        zmod_pow_eq_one_iff 115792089237316195423570985008687907853269984665640564039457584007908834671663 3 57896044618658097711785492504343953926634992332820282019728792003954417335831 (by norm_num),
        ← npowMod_eq 115792089237316195423570985008687907853269984665640564039457584007908834671663 3 257 57896044618658097711785492504343953926634992332820282019728792003954417335831 (by norm_num)] at hcontra
      exact absurd hcontra (by decide)
    rcases (Nat.Prime.dvd_mul hq).mp hdvd with h | hdvd
    · have hqe : q = 3 := (Nat.prime_dvd_prime_iff_eq hq (by norm_num)).mp h
      subst hqe
      intro hcontra
      rw [show (115792089237316195423570985008687907853269984665640564039457584007908834671662 : ℕ) / 3 = 38597363079105398474523661669562635951089994888546854679819194669302944890554 from by norm_num,
        zmod_pow_eq_one_iff 115792089237316195423570985008687907853269984665640564039457584007908834671663 3 38597363079105398474523661669562635951089994888546854679819194669302944890554 (by norm_num),
        ← npowMod_eq 115792089237316195423570985008687907853269984665640564039457584007908834671663 3 257 38597363079105398474523661669562635951089994888546854679819194669302944890554 (by norm_num)] at hcontra
      exact absurd hcontra (by decide)
    rcases (Nat.Prime.dvd_mul hq).mp hdvd with h | hdvd
    · have hqe : q = 7 := (Nat.prime_dvd_prime_iff_eq hq (by norm_num)).mp h
      subst hqe
      intro hcontra
      rw [show (115792089237316195423570985008687907853269984665640564039457584007908834671662 : ℕ) / 7 = 16541727033902313631938712144098272550467140666520080577065369143986976381666 from by norm_num,
        zmod_pow_eq_one_iff 115792089237316195423570985008687907853269984665640564039457584007908834671663 3 16541727033902313631938712144098272550467140666520080577065369143986976381666 (by norm_num),
        ← npowMod_eq 115792089237316195423570985008687907853269984665640564039457584007908834671663 3 257 16541727033902313631938712144098272550467140666520080577065369143986976381666 (by norm_num)] at hcontra
      exact absurd hcontra (by decide)
    rcases (Nat.Prime.dvd_mul hq).mp hdvd with h | hdvd
    · have hqe : q = 13441 := (Nat.prime_dvd_prime_iff_eq hq (by norm_num)).mp h
      subst hqe
      intro hcontra
      rw [show (115792089237316195423570985008687907853269984665640564039457584007908834671662 : ℕ) / 13441 = 8614841844901137967678817424945160914609774917464516333565775166126689582 from by norm_num,
        zmod_pow_eq_one_iff 115792089237316195423570985008687907853269984665640564039457584007908834671663 3 8614841844901137967678817424945160914609774917464516333565775166126689582 (by norm_num),
        ← npowMod_eq 115792089237316195423570985008687907853269984665640564039457584007908834671663 3 257 8614841844901137967678817424945160914609774917464516333565775166126689582 (by norm_num)] at hcontra
      exact absurd hcontra (by decide)
    have hqe : q = 205115282021455665897114700593932402728804164701536103180137503955397371 := (Nat.prime_dvd_prime_iff_eq hq (certC)).mp hdvd
    subst hqe
    intro hcontra
    rw [show (115792089237316195423570985008687907853269984665640564039457584007908834671662 : ℕ) / 205115282021455665897114700593932402728804164701536103180137503955397371 = 564522 from by norm_num,
      zmod_pow_eq_one_iff 115792089237316195423570985008687907853269984665640564039457584007908834671663 3 564522 (by norm_num),
      ← npowMod_eq 115792089237316195423570985008687907853269984665640564039457584007908834671663 3 257 564522 (by norm_num)] at hcontra
    exact absurd hcontra (by decide)


instance secpP_prime_fact : Fact (Nat.Prime secpP) := ⟨certP⟩

theorem tPowers_eq (t : ZMod secpP) (i : ℕ) : tPowers t i = t ^ (2 ^ i) := by
  induction i with
  | zero => simp [tPowers]
  | succ i ih =>
      rw [tPowers, ih, ← pow_mul, pow_succ]

theorem legendreChainAcc_eq (t : ZMod secpP) :
    legendreChainAcc t = t ^ 2147484137 := by
  rw [legendreChainAcc]
  rw [show ([3, 5, 6, 7, 8, 31] : List ℕ).foldl
        (fun a i => a * tPowers t i) (tPowers t 0) =
      tPowers t 0 * tPowers t 3 * tPowers t 5 * tPowers t 6 * tPowers t 7 *
        tPowers t 8 * tPowers t 31 from rfl]
  rw [tPowers_eq, tPowers_eq, tPowers_eq, tPowers_eq, tPowers_eq, tPowers_eq,
    tPowers_eq]
  rw [← pow_add, ← pow_add, ← pow_add, ← pow_add, ← pow_add, ← pow_add]
  norm_num

theorem sqrtChainAcc_eq (t : ZMod secpP) :
    sqrtChainAcc t = t ^ 1073742068 := by
  rw [sqrtChainAcc]
  rw [show ([4, 5, 6, 7, 30] : List ℕ).foldl
        (fun a i => a * tPowers t i) (tPowers t 2) =
      tPowers t 2 * tPowers t 4 * tPowers t 5 * tPowers t 6 * tPowers t 7 *
        tPowers t 30 from rfl]
  rw [tPowers_eq, tPowers_eq, tPowers_eq, tPowers_eq, tPowers_eq, tPowers_eq]
  rw [← pow_add, ← pow_add, ← pow_add, ← pow_add, ← pow_add]
  norm_num

theorem legendreChain_eq (t : ZMod secpP) (ht : t ≠ 0) :
    legendreChain t = t ^ ((secpP - 1) / 2) := by
  rw [legendreChain, legendreChainAcc_eq, tPowers_eq,
    show (secpP - 1) / 2 = 2 ^ 255 - 2147484137 from by norm_num [secpP],
    pow_sub₀ t ht (by norm_num)]

theorem sqrtCandidate_eq (t : ZMod secpP) (ht : t ≠ 0) :
    sqrtCandidate t = t ^ ((secpP + 1) / 4) := by
  rw [sqrtCandidate, sqrtChainAcc_eq, tPowers_eq,
    show (secpP + 1) / 4 = 2 ^ 254 - 1073742068 from by norm_num [secpP],
    pow_sub₀ t ht (by norm_num)]

/-- Claim C6: for every nonzero quadratic residue t of the secp256k1 base
field (presented by a nonzero square root u), the Legendre symbol
computed by the fixed squaring-and-multiplication chain equals one, the
candidate square root computed by the (p+1)/4 chain squares back to t,
and the final root is selected so that its lowest bit matches the parity
bit of the recovery id. -/
theorem legendre_chain_and_sqrt (u : ZMod secpP) (hu : u ≠ 0) (t : ZMod secpP)
    (ht : t = u * u) (recid : ℕ) :
    legendreChain t = 1 ∧
      sqrtCandidate t ^ 2 = t ∧
      (selectSqrt t recid).val % 2 = recid % 2 := by
  haveI : NeZero secpP := ⟨by norm_num [secpP]⟩
  have htne : t ≠ 0 := by
    rw [ht]
    exact mul_ne_zero hu hu
  have hleg : legendreChain t = 1 := by
    rw [legendreChain_eq t htne, ht, ← pow_two, ← pow_mul,
      show 2 * ((secpP - 1) / 2) = secpP - 1 from by norm_num [secpP]]
    exact ZMod.pow_card_sub_one_eq_one hu
  have hsq : sqrtCandidate t ^ 2 = t := by
    rw [sqrtCandidate_eq t htne, ← pow_mul,
      show (secpP + 1) / 4 * 2 = (secpP - 1) / 2 + 1 from by norm_num [secpP],
      pow_succ, ← legendreChain_eq t htne, hleg, one_mul]
  refine ⟨hleg, hsq, ?_⟩
  have hc0 : sqrtCandidate t ≠ 0 := by
    intro h0
    apply htne
    rw [← hsq, h0]
    norm_num
  have hvlt : (sqrtCandidate t).val < secpP := ZMod.val_lt _
  have hv0 : (sqrtCandidate t).val ≠ 0 := by
    intro h0
    exact hc0 (by rwa [← ZMod.val_eq_zero])
  have hodd : secpP % 2 = 1 := by norm_num [secpP]
  have hnegval : (-(sqrtCandidate t)).val = secpP - (sqrtCandidate t).val := by
    rw [ZMod.neg_val, if_neg hc0]
  by_cases hl : (sqrtCandidate t).val % 2 = 1 <;>
    by_cases hy : recid % 2 = 1 <;>
      simp [selectSqrt, hl, hy, hnegval] <;> omega

/-- Witness for C6 at the concrete residue 4 with root 2 and recovery
id 1. -/
theorem legendre_chain_witness :
    legendreChain (4 : ZMod secpP) = 1 ∧
      sqrtCandidate (4 : ZMod secpP) ^ 2 = 4 ∧
      (selectSqrt (4 : ZMod secpP) 1).val % 2 = 1 % 2 :=
  legendre_chain_and_sqrt 2 (by decide) 4 (by decide) 1
